import Mathlib

/-!
Verification of the "Stacks" Blender add-on (repository sorecords/stacks)
against its natural-language specification.

This file shallowly embeds the add-on's core logic in Lean 4:

* the interpolation engine (`STACKS_PropValues.__interp_ease`,
  `STACKS_PropValues.__interp_random`, `STACKS_PropValues.__call__` in
  src/stacks_support.py), with Python floats modelled as rationals and the
  seeded PRNG `random.seed(s); random.random()` modelled as an arbitrary
  function from seeds to rationals (the draw is a pure function of the
  last seed set);
* the stack assembler and execution driver
  (`STACKS_Stack.__funcs`, `STACKS_SingleOperator`,
  `STACKS_ExecuteStacks.execute` / `.restore` / `.__enable_modifiers`),
  with the property store modelled as an explicit state and host mesh
  commands treated as opaque events in a trace;
* the scene/object slot registry (`EnumStackItems.update_project`,
  `project_stack_remove`, `object_stack_remove`, `STACKS_SlotRemove`);
* the preset save/load value layer (`STACKS_PresetsOps.__add_op_as_str`,
  `__set_ops`, `__get_bl_rna_item` in src/stacks_presets_support.py), with
  the Blender-text/`as_module` round trip of literals abstracted as the
  identity on parsed values;
* the stored-selection restore step (`SelectSet` in src/stacks_exe.py),
  with the parsing of the snapshot string abstracted to the index lists it
  yields.

Machine integers do not overflow in any of the modelled code paths
(Blender `IntProperty` values are boxed Python ints), so integers are
modelled as ℤ/ℕ directly.
-/

namespace Stacks

/-- A dynamic property value as stored in an operator entry's property bag:
a Python float (`FloatProperty`), int (`IntProperty`) or 3-float vector
(`FloatVectorProperty`).  Python floats are modelled as rationals. -/
inductive PValue where
  | flt (q : ℚ)
  | int (n : ℤ)
  | vec (x y z : ℚ)
deriving DecidableEq, Repr

/-- `map_range` from src/stacks_support_common.py:
`(value - oldmin) * (newmax - newmin) / (oldmax - oldmin) + newmin`. -/
def map_range (value oldmin oldmax newmin newmax : ℚ) : ℚ :=
  (value - oldmin) * (newmax - newmin) / (oldmax - oldmin) + newmin

/-- Python's `int()` applied to a float: truncation toward zero. -/
def pyInt (q : ℚ) : ℤ :=
  if 0 ≤ q then ⌊q⌋ else -⌊-q⌋

/-- Python's `str.capitalize()`: first character upper-cased, the rest
lower-cased.  Used by `STACKS_Stack.__opname`. -/
def pyCapitalize (s : String) : String :=
  match s.toList with
  | [] => ""
  | c :: rest => List.asString (c.toUpper :: rest.map Char.toLower)

/-- One operator entry (`STACKS_PROP_Operator` property group,
src/stacks_props.py): the statically accessed configuration fields plus a
dynamic property bag for the fields reached with `getattr`/`setattr`
(`value_min`, `gen_subd_cuts`, ...).  Enum values are kept as their string
identifiers. -/
structure OpEntry where
  /-- display name, set by `STACKS_Stack.__funcs` -/
  name : String
  enabled : Bool
  /-- `operator_type` enum: 'NONE', 'SELECT', 'GENERATE', ... -/
  operator_type : String
  /-- value of the `ops_<operator_type>` enum selecting the subtype -/
  opfunc_sel : String
  /-- `interpolate` enum: 'STRAIGHT' or 'REVERSED' -/
  interpolate : String
  /-- `interp_type` enum: 'CONSTANT', 'BEZIER' or 'RANDOM' -/
  interp_type : String
  /-- `interp_ease` enum: 'INOUT', 'IN' or 'OUT' -/
  interp_ease : String
  interp_ease_in : ℚ
  interp_ease_out : ℚ
  interp_seed : ℤ
  value_sync : Bool
  /-- the dynamic property bag, indexed by property name -/
  fields : String → PValue

/-- One entry of an `INTERPOLATE[optype][opfunc]` dict
(src/stacks_constants.py): interpolated property name, min-field name,
max-field name, optional syncable marker. -/
structure PropDesc where
  src : String
  pmin : String
  pmax : String
  syncable : Bool
deriving DecidableEq, Repr

/-- Non-syncable `INTERPOLATE` descriptor `src: (pmin, pmax)`. -/
def pd (src pmin pmax : String) : PropDesc := ⟨src, pmin, pmax, false⟩

/-- Syncable `INTERPOLATE` descriptor `src: (pmin, pmax, __syncable)`. -/
def pdS (src pmin pmax : String) : PropDesc := ⟨src, pmin, pmax, true⟩

/-- The `INTERPOLATE` table from src/stacks_constants.py, curried:
`INTERPOLATE optype opfunc` is `some` of the property descriptor list when
`optype in INTERPOLATE.keys() and opfunc in INTERPOLATE[optype].keys()`,
and `none` otherwise.  Dicts are modelled as lists in insertion order. -/
def INTERPOLATE (optype opfunc : String) : Option (List PropDesc) :=
  match optype, opfunc with
  | "GENERATE", "EXTRUDE" => some [pd "gen_extr_indval" "value_min" "value_max",
      pd "gen_extr_value" "value_vec_min" "value_vec_max"]
  | "GENERATE", "SUBDIVIDE" => some [pd "gen_subd_cuts" "value_min_int" "value_max_int",
      pd "gen_subd_smooth" "value_min" "value_max"]
  | "GENERATE", "BEVEL" => some [pd "gen_b_offset_pct" "value_min" "value_max",
      pd "gen_b_offset" "value_min" "value_max"]
  | "GENERATE", "SOLIDIFY" => some [pd "gen_solidify" "value_min" "value_max"]
  | "GENERATE", "WIREFRAME" => some [pd "gen_wrf_thick" "value_min" "value_max"]
  | "GENERATE", "DUPLICATE" => some [pd "gen_grab" "value_vec_min" "value_vec_max",
      pd "gen_rotate" "angle_vec_min" "angle_vec_max",
      pdS "gen_scale" "scale_vec_min" "scale_vec_max"]
  | "GENERATE", "INSET" => some [pd "gen_ins_thick" "value_min" "value_max",
      pd "gen_ins_depth" "value_min2" "value_max2"]
  | "DEFORM", "SPHERE" => some [pd "sel_rand_ratio" "value_min" "value_max"]
  | "DEFORM", "RANDOMIZE" => some [pd "gen_extr_indval" "value_min" "value_max"]
  | "DEFORM", "SMOOTH" => some [pd "gen_subd_smooth" "value_min" "value_max"]
  | "DEFORM", "PUSH" => some [pd "gen_extr_indval" "value_min" "value_max"]
  | "DEFORM", "SHRINK" => some [pd "def_shrink_fac" "value_min" "value_max"]
  | "DEFORM", "SHEAR" => some [pd "def_shrink_fac" "value_min" "value_max"]
  | "SELECT", "RANDOM" => some [pd "sel_rand_ratio" "value_min" "value_max",
      pd "sel_rand_seed" "value_min_int" "value_max_int"]
  | "TRANSFORM", "GRAB" => some [pd "gen_grab" "value_vec_min" "value_vec_max"]
  | "TRANSFORM", "ROTATE" => some [pd "gen_rotate" "angle_vec_min" "angle_vec_max"]
  | "TRANSFORM", "SCALE" => some [pdS "gen_scale" "scale_vec_min" "scale_vec_max"]
  | "ADD", "PLANE" => some [pd "add_size" "value_min" "value_max",
      pd "gen_grab" "value_vec_min" "value_vec_max",
      pd "gen_rotate" "angle_vec_min" "angle_vec_max",
      pdS "gen_scale" "scale_vec_min" "scale_vec_max"]
  | "ADD", "CUBE" => some [pd "add_size" "value_min" "value_max",
      pd "gen_grab" "value_vec_min" "value_vec_max",
      pd "gen_rotate" "angle_vec_min" "angle_vec_max",
      pdS "gen_scale" "scale_vec_min" "scale_vec_max"]
  | "ADD", "CIRCLE" => some [pd "add_circ_verts" "value_min_int" "value_max_int",
      pd "add_radius" "value_min" "value_max",
      pd "gen_grab" "value_vec_min" "value_vec_max",
      pd "gen_rotate" "angle_vec_min" "angle_vec_max",
      pdS "gen_scale" "scale_vec_min" "scale_vec_max"]
  | "ADD", "UVSPHERE" => some [pd "add_circ_verts" "value_min_int" "value_max_int",
      pd "add_sphr_rings" "value_min_int2" "value_max_int2",
      pd "add_radius" "value_min" "value_max",
      pd "gen_grab" "value_vec_min" "value_vec_max",
      pd "gen_rotate" "angle_vec_min" "angle_vec_max",
      pdS "gen_scale" "scale_vec_min" "scale_vec_max"]
  | "ADD", "ICOSPHERE" => some [pd "add_sphr_ico" "value_min_int" "value_max_int",
      pd "add_radius" "value_min" "value_max",
      pd "gen_grab" "value_vec_min" "value_vec_max",
      pd "gen_rotate" "angle_vec_min" "angle_vec_max",
      pdS "gen_scale" "scale_vec_min" "scale_vec_max"]
  | "ADD", "CYLINDER" => some [pd "add_circ_verts" "value_min_int" "value_max_int",
      pd "add_radius" "value_min" "value_max",
      pd "add_radius2" "value_min2" "value_max2",
      pd "gen_grab" "value_vec_min" "value_vec_max",
      pd "gen_rotate" "angle_vec_min" "angle_vec_max",
      pdS "gen_scale" "scale_vec_min" "scale_vec_max"]
  | "ADD", "CONE" => some [pd "add_circ_verts" "value_min_int" "value_max_int",
      pd "add_radius" "value_min" "value_max",
      pd "gen_ins_thick" "value_min2" "value_max2",
      pd "add_sphr_ico" "value_min3" "value_max3",
      pd "gen_grab" "value_vec_min" "value_vec_max",
      pd "gen_rotate" "angle_vec_min" "angle_vec_max",
      pdS "gen_scale" "scale_vec_min" "scale_vec_max"]
  | "ADD", "TORUS" => some [pd "add_tor_seg_maj" "value_min_int" "value_max_int",
      pd "add_tor_seg_min" "value_min_int2" "value_max_int2",
      pd "add_tor_rad_maj" "value_min" "value_max",
      pd "add_tor_rad_min" "value_min2" "value_max2",
      pd "add_tor_rad_abso_maj" "value_min" "value_max",
      pd "add_tor_rad_abso_min" "value_min2" "value_max2",
      pd "gen_grab" "value_vec_min" "value_vec_max",
      pd "gen_rotate" "angle_vec_min" "angle_vec_max"]
  | "ADD", "GRID" => some [pd "add_grid_x" "value_min_int" "value_max_int",
      pd "add_grid_y" "value_min_int2" "value_max_int2",
      pd "add_size" "value_min" "value_max",
      pd "gen_grab" "value_vec_min" "value_vec_max",
      pd "gen_rotate" "angle_vec_min" "angle_vec_max",
      pdS "gen_scale" "scale_vec_min" "scale_vec_max"]
  | "ADD", "MONKEY" => some [pd "add_size" "value_min" "value_max",
      pd "gen_grab" "value_vec_min" "value_vec_max",
      pd "gen_rotate" "angle_vec_min" "angle_vec_max",
      pdS "gen_scale" "scale_vec_min" "scale_vec_max"]
  | _, _ => none

/-- `STACKS_PropValues.__interp_random` (src/stacks_support.py:300-341).
`rand s` models the value of `random.seed(s); random.random()`: the draw is
a pure function of the seed that was set immediately before it.  The
`seed += 1` advances between draws are transcribed as the `+ 1` / `+ 2`
offsets of the second and third channel.  `ind` is the iteration index
passed by `STACKS_PropValues.__call__`. -/
def interp_random (rand : ℤ → ℚ) (op : OpEntry) (props : PropDesc) (ind : ℤ) : PValue :=
  let seed := op.interp_seed + ind
  let val_min := op.fields props.pmin
  let val_max := op.fields props.pmax
  match val_min, val_max with
  | .vec ax _ _, .vec bx «by» bz =>
      -- `len(val_min)` succeeds: vector branch
      if op.value_sync ∧ props.syncable then
        let x := map_range (rand seed) 0 1 ax bx
        .vec x x x
      else
        match val_min with
        | .vec ax ay az =>
            let x := map_range (rand seed) 0 1 ax bx
            let y := map_range (rand (seed + 1)) 0 1 ay «by»
            let z := map_range (rand (seed + 2)) 0 1 az bz
            .vec x y z
        | _ => .vec ax «by» bz  -- unreachable: val_min matched .vec above
  | .int a, .int b =>
      -- scalar branch (`len(val_min)` raises TypeError); int field: truncate
      .int (pyInt (map_range (rand seed) 0 1 (a : ℚ) (b : ℚ)))
  | .flt a, .flt b =>
      .flt (map_range (rand seed) 0 1 a b)
  | v, _ => v  -- mixed-typed min/max fields: never produced by the schema

/-- `STACKS_PropValues.__interp_ease` (src/stacks_support.py:343-388).
`rep` is `self.repeat` (the stack's repeat count), `ind` the iteration
index.  The arithmetic is Python float arithmetic, modelled exactly on ℚ. -/
def interp_ease (op : OpEntry) (props : PropDesc) (rep : ℕ) (ind : ℕ) : PValue :=
  let value : ℚ := if op.interpolate = "STRAIGHT" then (ind : ℚ) else (rep : ℚ) - (ind : ℚ)
  let v : ℚ := value / (rep : ℚ)
  let ease_in := op.interp_ease_in
  let ease_out := op.interp_ease_out
  let x : ℚ :=
    if op.interp_ease = "INOUT" then
      if v ≤ 1/2 then (1 - v) * ease_in + v * ease_out else v * ease_in + (1 - v) * ease_out
    else if op.interp_ease = "IN" then
      (1 - v) * ease_in + v * ease_out
    else
      v * ease_in + (1 - v) * ease_out
  let val_min := op.fields props.pmin
  let val_max := op.fields props.pmax
  match val_min, val_max with
  | .vec ax _ _, .vec bx «by» bz =>
      if op.value_sync ∧ props.syncable then
        let x_norm := map_range x 0 1 ax bx
        .vec x_norm x_norm x_norm
      else
        match val_min with
        | .vec ax ay az =>
            .vec (map_range x 0 1 ax bx) (map_range x 0 1 ay «by») (map_range x 0 1 az bz)
        | _ => .vec ax «by» bz  -- unreachable: val_min matched .vec above
  | .int a, .int b =>
      .int (pyInt (map_range x 0 1 (a : ℚ) (b : ℚ)))
  | .flt a, .flt b =>
      .flt (map_range x 0 1 a b)
  | v, _ => v  -- mixed-typed min/max fields: never produced by the schema

/-- `STACKS_Value`: interpolated property name, value snapshotted at
construction time, and the per-iteration value list. -/
structure PropVal where
  prop : String
  init : PValue
  values : List PValue
deriving DecidableEq, Repr

/-- `STACKS_PropValues.__call__` (src/stacks_support.py:282-298) for one
property descriptor: `num` is the 1-based position of the property in the
`propdict` (the source increments `num` before using it), `rep` the repeat
count.  The source fills all properties' lists in one nested loop over
iterations; since the store is not written during the computation this
equals building each property's whole list at once, with `init` the value
of the property at construction time. -/
def propVal (rand : ℤ → ℚ) (op : OpEntry) (rep : ℕ) (num : ℕ) (d : PropDesc) : PropVal :=
  { prop := d.src
    init := op.fields d.src
    values := (List.range rep).map fun (i : ℕ) =>
      if op.interp_type = "RANDOM" then interp_random rand op d ((i * num : ℕ) : ℤ)
      else interp_ease op d rep i }

/-- `STACKS_PropValues.__call__` over the whole `propdict`. -/
def propValues (rand : ℤ → ℚ) (op : OpEntry) (rep : ℕ) (propdict : List PropDesc) :
    List PropVal :=
  propdict.enum.map fun p => propVal rand op rep (p.1 + 1) p.2

/-! ### The execution driver (`STACKS_ExecuteStacks`)

Scene stacks own the operator entries: the property store is addressed by
(scene-stack index, operator index).  Writes performed with
`setattr(f.op, ...)` target that store.  Host mesh commands only mutate
the mesh (out of scope); their invocations are recorded as `call` events
in a trace, and property writes as `write` events. -/

/-- The scene-level operator-entry store: `scene.stacks[k].ops[j]`. -/
def Entries : Type := ℕ → ℕ → OpEntry

/-- What a `STACKS_SingleOperator`'s `self.op` refers to: a scene operator
entry (`STACKS_Stack` funcs) or the slot itself (`STACKS_StackSelect`). -/
inductive OpRef where
  | scene (k j : ℕ)
  | slot (i : ℕ)
deriving DecidableEq, Repr

/-- One `STACKS_SingleOperator`: target reference, the cached
`self.repeatable`, and the cached `self.values` (empty when not
repeatable, mirroring `values = ... if self.repeatable else None`). -/
structure Func where
  ref : OpRef
  repeatable : Bool
  vals : List PropVal
deriving DecidableEq, Repr

/-- One `STACKS_Stack`/`STACKS_StackSelect` as consumed by `execute`. -/
structure StackE where
  rep : ℕ
  funcs : List Func
deriving DecidableEq, Repr

/-- Write one dynamic property of one scene operator entry. -/
def setField (es : Entries) (k j : ℕ) (p : String) (v : PValue) : Entries :=
  fun a b =>
    if a = k ∧ b = j then
      { es k j with fields := fun q => if q = p then v else (es k j).fields q }
    else es a b

/-- Write the `name` of one scene operator entry
(the `op.name = ...` assignment in `STACKS_Stack.__funcs`). -/
def setName (es : Entries) (k j : ℕ) (n : String) : Entries :=
  fun a b => if a = k ∧ b = j then { es k j with name := n } else es a b

/-- An observable event of `STACKS_ExecuteStacks.execute`: a property
write `setattr(f.op, v.prop, v.values[i])`, or an invocation `f()` of the
underlying host mesh command. -/
inductive Ev where
  | write (k j : ℕ) (prop : String) (val : PValue)
  | call (ref : OpRef)
deriving DecidableEq, Repr

/-- The `for v in f.values: setattr(f.op, v.prop, v.values[i])` loop of
`execute` for iteration `i`, on a scene-entry target `(k, j)`. -/
def execVals (k j i : ℕ) : List PropVal → Entries → Entries × List Ev
  | [], es => (es, [])
  | pv :: rest, es =>
      let v := pv.values.getD i (.flt 0)
      let r := execVals k j i rest (setField es k j pv.prop v)
      (r.1, .write k j pv.prop v :: r.2)

/-- One `f` step of the `execute` iteration loop: the conditional write
loop followed by the invocation `f()`. -/
def execFunc (i : ℕ) (f : Func) (es : Entries) : Entries × List Ev :=
  let r :=
    if f.repeatable then
      match f.ref with
      | .scene k j => execVals k j i f.vals es
      | .slot _ => (es, [])  -- select funcs are never repeatable and carry no values
    else (es, [])
  (r.1, r.2 ++ [.call f.ref])

/-- The `for f in stack.funcs` loop at a fixed iteration `i`. -/
def execFuncs (i : ℕ) : List Func → Entries → Entries × List Ev
  | [], es => (es, [])
  | f :: rest, es =>
      let r1 := execFunc i f es
      let r2 := execFuncs i rest r1.1
      (r2.1, r1.2 ++ r2.2)

/-- The `for i in range(stack.repeat)` loop, over an explicit index list. -/
def execIters (fs : List Func) : List ℕ → Entries → Entries × List Ev
  | [], es => (es, [])
  | i :: rest, es =>
      let r1 := execFuncs i fs es
      let r2 := execIters fs rest r1.1
      (r2.1, r1.2 ++ r2.2)

/-- `STACKS_ExecuteStacks.execute` (src/stacks_support.py:539-551): the
`for stack in self.stacks` loop. -/
def execStacks : List StackE → Entries → Entries × List Ev
  | [], es => (es, [])
  | st :: rest, es =>
      let r1 := execIters st.funcs (List.range st.rep) es
      let r2 := execStacks rest r1.1
      (r2.1, r1.2 ++ r2.2)

/-- The `setattr(f.op, v.prop, v.init)` loop of
`STACKS_ExecuteStacks.restore` for one func's value list. -/
def restoreVals (k j : ℕ) : List PropVal → Entries → Entries
  | [], es => es
  | pv :: rest, es => restoreVals k j rest (setField es k j pv.prop pv.init)

/-- One `f` step of `restore`: `if f.repeatable: for v in f.values: ...`. -/
def restoreFunc (f : Func) (es : Entries) : Entries :=
  if f.repeatable then
    match f.ref with
    | .scene k j => restoreVals k j f.vals es
    | .slot _ => es
  else es

/-- The `for f in stack.funcs` loop of `restore`. -/
def restoreFuncs : List Func → Entries → Entries
  | [], es => es
  | f :: rest, es => restoreFuncs rest (restoreFunc f es)

/-- `STACKS_ExecuteStacks.restore` (src/stacks_support.py:553-561), the
property-restoring loops (the final `setmode`/`live_update` lines are
modelled in the surrounding pipeline). -/
def restoreStacks : List StackE → Entries → Entries
  | [], es => es
  | st :: rest, es => restoreStacks rest (restoreFuncs st.funcs es)

/-! ### The stack assembler (`STACKS_Stack.__funcs` and `_stacks`) -/

/-- `STACKS_Stack.__opname`: "None" for disabled dispatch, otherwise the
capitalized "Type Subtype" display name. -/
def opname (optype opfunc : String) : String :=
  if optype = "NONE" ∨ opfunc = "SKIP" then "None"
  else pyCapitalize optype ++ " " ++ pyCapitalize opfunc

/-- `STACKS_Stack.__funcs` (src/stacks_support.py:445-458) over the ops of
scene stack `k` with repeat count `rep`, iterating the op indices `js`.
Each op's display name is written back into the store; ops that are
disabled or dispatch to 'NONE'/'SKIP' are skipped.  `self.repeatable`
(src/stacks_support.py:421-427) is `repeat > 1 and interp_type != CONSTANT
and the (optype, opfunc) pair is in INTERPOLATE`; only then are the
interpolation values computed. -/
def buildOps (rand : ℤ → ℚ) (k rep : ℕ) : List ℕ → Entries → Entries × List Func
  | [], es => (es, [])
  | j :: rest, es =>
      let op := es k j
      let optype := op.operator_type
      let opfunc := if optype = "NONE" then "SKIP" else op.opfunc_sel
      let es1 := setName es k j (opname optype opfunc)
      if ¬op.enabled ∨ optype = "NONE" ∨ opfunc = "SKIP" then
        buildOps rand k rep rest es1
      else
        let op1 := es1 k j
        let repeatable : Bool :=
          decide (rep > 1) && decide (op1.interp_type ≠ "CONSTANT")
            && (INTERPOLATE optype opfunc).isSome
        let vals :=
          if repeatable then propValues rand op1 rep ((INTERPOLATE optype opfunc).getD [])
          else []
        let r := buildOps rand k rep rest es1
        (r.1, { ref := .scene k j, repeatable := repeatable, vals := vals } :: r.2)

/-- One object stack slot (`ob.stacks_c[i]`), as read by `_stacks`:
enabled flag, stack type ('STACK' or 'SELECT'), referenced scene stack
index and repeat count. -/
structure Slot where
  enabled : Bool
  type : String
  stack_index : ℕ
  rep : ℕ
deriving DecidableEq, Repr

/-- `STACKS_ExecuteStacks._stacks` (src/stacks_support.py:563-575):
disabled slots are dropped; 'SELECT' slots yield a `STACKS_StackSelect`
whose single func targets the slot itself (its `repeatable` is computed
with empty optype, hence always false); slots whose `stack_index` is out
of range of the scene catalog are skipped; other slots assemble the
referenced scene stack's funcs.  `numStacks` is `len(self.sc_stacks)` and
`opsLen k` is `len(sc_stacks[k].ops)`. -/
def buildSlots (rand : ℤ → ℚ) (numStacks : ℕ) (opsLen : ℕ → ℕ) :
    List (ℕ × Slot) → Entries → Entries × List StackE
  | [], es => (es, [])
  | (ind, slot) :: rest, es =>
      if ¬slot.enabled then buildSlots rand numStacks opsLen rest es
      else if slot.type = "SELECT" then
        let repeatable : Bool :=
          decide (slot.rep > 1) && true && (INTERPOLATE "" "").isSome
        let st : StackE :=
          { rep := slot.rep
            funcs := [{ ref := .slot ind, repeatable := repeatable, vals := [] }] }
        let r := buildSlots rand numStacks opsLen rest es
        (r.1, st :: r.2)
      else if numStacks ≤ slot.stack_index then
        buildSlots rand numStacks opsLen rest es
      else
        let r1 := buildOps rand slot.stack_index slot.rep
          (List.range (opsLen slot.stack_index)) es
        let st : StackE := { rep := slot.rep, funcs := r1.2 }
        let r2 := buildSlots rand numStacks opsLen rest r1.1
        (r2.1, st :: r2.2)

/-- `__enable_modifiers` (src/stacks_support.py:530-533): each modifier's
`show_viewport` becomes its snapshotted value when enabling and `False`
when disabling.  The snapshot is the `self._modifiers` dict
(src/stacks_support.py:525-528). -/
def enable_modifiers (snapshot : List Bool) (enable : Bool) : List Bool :=
  snapshot.map fun e => if enable then e else false

/-- Result of one completed `STACKS_ExecuteStacks(context)` run. -/
structure RunResult where
  /-- the store after build, execute and restore -/
  entries : Entries
  /-- the editor mode after the run -/
  mode : String
  /-- the `show_viewport` flags while the operators execute -/
  duringMods : List Bool
  /-- the `show_viewport` flags after the run -/
  finalMods : List Bool
  /-- the assembled stacks (`self.stacks`) -/
  stacksE : List StackE
  /-- the event trace of `execute` -/
  trace : List Ev

/-- A completed `STACKS_ExecuteStacks.__init__` (src/stacks_support.py:
501-523) on an object whose reference setup succeeds: the editor mode and
the modifiers' `show_viewport` flags are captured, all modifiers are
disabled, the stacks are assembled, `execute` runs, `restore` puts the
interpolated properties and the captured mode back, and the modifiers are
re-enabled from the snapshot.  Mesh-level effects are out of scope; mode
changes during `execute` (every `STACKS_Op.__call__` enters EDIT mode) are
overwritten by the final `setmode(self.context, self.mode)` of `restore`. -/
def STACKS_ExecuteStacks_run (rand : ℤ → ℚ) (entries0 : Entries) (mode0 : String)
    (mods0 : List Bool) (numStacks : ℕ) (opsLen : ℕ → ℕ) (slots : List Slot) :
    RunResult :=
  let duringMods := enable_modifiers mods0 false
  let b := buildSlots rand numStacks opsLen slots.enum entries0
  let e := execStacks b.2 b.1
  let es3 := restoreStacks b.2 e.1
  { entries := es3
    mode := mode0
    duringMods := duringMods
    finalMods := enable_modifiers mods0 true
    stacksE := b.2
    trace := e.2 }

/-! ### Claim C3: the ease blend formula -/

/-- The normalized progress of the ease interpolation, as the spec words
it: computed from the iteration index, reversed when the interpolate
direction is configured 'REVERSED' (the code's
`value = ind if self.interpolate == 'STRAIGHT' else self.repeat - ind`
divided by `self.repeat`). -/
def easeProgressSpec (dir : String) (rep ind : ℕ) : ℚ :=
  (if dir = "STRAIGHT" then (ind : ℚ) else (rep : ℚ) - (ind : ℚ)) / (rep : ℚ)

/-- The blend output as the spec words it: `(1−v)·a + v·b` for `v ≤ 0.5`
and `v·a + (1−v)·b` otherwise in "in/out" mode, always `(1−v)·a + v·b` in
pure "in" mode and always `v·a + (1−v)·b` in pure "out" mode. -/
def easeBlendSpec (mode : String) (a b v : ℚ) : ℚ :=
  if mode = "INOUT" then
    if v ≤ 1/2 then (1 - v) * a + v * b else v * a + (1 - v) * b
  else if mode = "IN" then (1 - v) * a + v * b
  else v * a + (1 - v) * b

/-- Claim C3: for every eased interpolation with ease-in scalar `a` and
ease-out scalar `b` and every iteration index, the normalized progress `v`
lies in [0,1] (computed from the iteration index, reversed if the
interpolate direction is configured reversed), the blend output follows
`easeBlendSpec` in each of the three ease modes, and the blend output is
mapped linearly from [0,1] into the declared [min,max] range. -/
theorem C3_ease_blend_formula (op : OpEntry) (d : PropDesc) (rep ind : ℕ)
    (hind : ind < rep) (m M : ℚ)
    (hm : op.fields d.pmin = .flt m) (hM : op.fields d.pmax = .flt M) :
    0 ≤ easeProgressSpec op.interpolate rep ind ∧
      easeProgressSpec op.interpolate rep ind ≤ 1 ∧
      interp_ease op d rep ind =
        .flt (map_range
          (easeBlendSpec op.interp_ease op.interp_ease_in op.interp_ease_out
            (easeProgressSpec op.interpolate rep ind)) 0 1 m M) := by
  have h0 : 0 < rep := lt_of_le_of_lt (Nat.zero_le ind) hind
  have hrep : (0 : ℚ) < (rep : ℚ) := by exact_mod_cast h0
  have hile : (ind : ℚ) ≤ (rep : ℚ) := by exact_mod_cast le_of_lt hind
  have hige : (0 : ℚ) ≤ (ind : ℚ) := Nat.cast_nonneg ind
  refine ⟨?_, ?_, ?_⟩
  · unfold easeProgressSpec
    apply div_nonneg _ (le_of_lt hrep)
    split
    · exact hige
    · linarith
  · unfold easeProgressSpec
    rw [div_le_one hrep]
    split
    · exact hile
    · linarith
  · simp only [interp_ease, hm, hM, easeBlendSpec, easeProgressSpec]

/-- A concrete eased Solidify entry used to witness C3. -/
def opC3 : OpEntry :=
  { name := ""
    enabled := true
    operator_type := "GENERATE"
    opfunc_sel := "SOLIDIFY"
    interpolate := "STRAIGHT"
    interp_type := "BEZIER"
    interp_ease := "INOUT"
    interp_ease_in := 0
    interp_ease_out := 1
    interp_seed := 1
    value_sync := false
    fields := fun q =>
      if q = "value_min" then .flt 0 else if q = "value_max" then .flt 1 else .flt 0 }

/-- Witness for C3 at a concrete entry, repeat 4, iteration 1. -/
theorem C3_ease_blend_formula_witness :
    (1 < 4 ∧ opC3.fields (pd "gen_solidify" "value_min" "value_max").pmin = .flt 0 ∧
      opC3.fields (pd "gen_solidify" "value_min" "value_max").pmax = .flt 1) ∧
    (0 ≤ easeProgressSpec opC3.interpolate 4 1 ∧
      easeProgressSpec opC3.interpolate 4 1 ≤ 1 ∧
      interp_ease opC3 (pd "gen_solidify" "value_min" "value_max") 4 1 =
        .flt (map_range
          (easeBlendSpec opC3.interp_ease opC3.interp_ease_in opC3.interp_ease_out
            (easeProgressSpec opC3.interpolate 4 1)) 0 1 0 1)) :=
  ⟨⟨by decide, rfl, rfl⟩,
    C3_ease_blend_formula opC3 (pd "gen_solidify" "value_min" "value_max") 4 1
      (by decide) 0 1 rfl rfl⟩

/-! ### Claim C5: seeded random interpolation is reproducible -/

/-- `__interp_random` depends only on the base seed, the sync flag and the
min/max field values: two entries agreeing on those produce the same
sample. -/
theorem interp_random_congr (rand : ℤ → ℚ) (op1 op2 : OpEntry) (d : PropDesc) (ind : ℤ)
    (hseed : op1.interp_seed = op2.interp_seed)
    (hsync : op1.value_sync = op2.value_sync)
    (hmin : op1.fields d.pmin = op2.fields d.pmin)
    (hmax : op1.fields d.pmax = op2.fields d.pmax) :
    interp_random rand op1 d ind = interp_random rand op2 d ind := by
  simp only [interp_random, hseed, hsync, hmin, hmax]

/-- Claim C5: for every operator entry using random interpolation with a
fixed base seed, two computations of the interpolation values with
identical inputs (same base seed, same repeat count, same min/max fields,
same sync flag) produce the identical sequence of sampled values, and the
three channels of a non-synced vector are sampled from the three distinct
seed advances `seed`, `seed + 1`, `seed + 2` of the per-iteration base
seed `interp_seed + ind`. -/
theorem C5_random_reproducible (rand : ℤ → ℚ) (op1 op2 : OpEntry) (rep : ℕ)
    (propdict : List PropDesc)
    (hseed : op1.interp_seed = op2.interp_seed)
    (hsync : op1.value_sync = op2.value_sync)
    (ht1 : op1.interp_type = "RANDOM") (ht2 : op2.interp_type = "RANDOM")
    (hfields : ∀ d ∈ propdict,
      op1.fields d.pmin = op2.fields d.pmin ∧ op1.fields d.pmax = op2.fields d.pmax) :
    ((propValues rand op1 rep propdict).map PropVal.values =
      (propValues rand op2 rep propdict).map PropVal.values) ∧
    (∀ d : PropDesc, ∀ ind : ℤ, ∀ a1 a2 a3 b1 b2 b3 : ℚ,
      op1.fields d.pmin = .vec a1 a2 a3 → op1.fields d.pmax = .vec b1 b2 b3 →
      ¬(op1.value_sync = true ∧ d.syncable = true) →
      interp_random rand op1 d ind =
        .vec (map_range (rand (op1.interp_seed + ind)) 0 1 a1 b1)
          (map_range (rand (op1.interp_seed + ind + 1)) 0 1 a2 b2)
          (map_range (rand (op1.interp_seed + ind + 2)) 0 1 a3 b3) ∧
        op1.interp_seed + ind ≠ op1.interp_seed + ind + 1 ∧
        op1.interp_seed + ind ≠ op1.interp_seed + ind + 2 ∧
        op1.interp_seed + ind + 1 ≠ op1.interp_seed + ind + 2) := by
  constructor
  · unfold propValues
    rw [List.map_map, List.map_map]
    apply List.map_congr_left
    intro p hp
    have hd : p.2 ∈ propdict := by
      have h1 := List.mem_map_of_mem Prod.snd hp
      rwa [List.enum_map_snd] at h1
    obtain ⟨hmin, hmax⟩ := hfields p.2 hd
    simp only [Function.comp, propVal, ht1, ht2]
    apply List.map_congr_left
    intro i _
    exact interp_random_congr rand op1 op2 p.2 _ hseed hsync hmin hmax
  · intro d ind a1 a2 a3 b1 b2 b3 hmin hmax hns
    refine ⟨?_, by omega, by omega, by omega⟩
    simp only [interp_random, hmin, hmax, if_neg hns]

/-- A concrete random-interpolated Grab entry used to witness C5. -/
def op5 : OpEntry :=
  { name := ""
    enabled := true
    operator_type := "TRANSFORM"
    opfunc_sel := "GRAB"
    interpolate := "STRAIGHT"
    interp_type := "RANDOM"
    interp_ease := "INOUT"
    interp_ease_in := 0
    interp_ease_out := 1
    interp_seed := 7
    value_sync := false
    fields := fun q =>
      if q = "value_vec_min" then .vec 0 0 0
      else if q = "value_vec_max" then .vec 1 2 3 else .flt 0 }

/-- A concrete model of the seeded PRNG used to witness C5. -/
def rand5 : ℤ → ℚ := fun s => (s : ℚ) / 100

/-- The propdict of `INTERPOLATE["TRANSFORM"]["GRAB"]` used to witness C5. -/
def propdict5 : List PropDesc := [pd "gen_grab" "value_vec_min" "value_vec_max"]

/-- Witness for C5 at a concrete entry with seed 7 and repeat 3. -/
theorem C5_random_reproducible_witness :
    (op5.interp_seed = op5.interp_seed ∧ op5.value_sync = op5.value_sync ∧
      op5.interp_type = "RANDOM" ∧ op5.interp_type = "RANDOM" ∧
      ∀ d ∈ propdict5,
        op5.fields d.pmin = op5.fields d.pmin ∧ op5.fields d.pmax = op5.fields d.pmax) ∧
    ((propValues rand5 op5 3 propdict5).map PropVal.values =
        (propValues rand5 op5 3 propdict5).map PropVal.values) ∧
    (∀ d : PropDesc, ∀ ind : ℤ, ∀ a1 a2 a3 b1 b2 b3 : ℚ,
      op5.fields d.pmin = .vec a1 a2 a3 → op5.fields d.pmax = .vec b1 b2 b3 →
      ¬(op5.value_sync = true ∧ d.syncable = true) →
      interp_random rand5 op5 d ind =
        .vec (map_range (rand5 (op5.interp_seed + ind)) 0 1 a1 b1)
          (map_range (rand5 (op5.interp_seed + ind + 1)) 0 1 a2 b2)
          (map_range (rand5 (op5.interp_seed + ind + 2)) 0 1 a3 b3) ∧
        op5.interp_seed + ind ≠ op5.interp_seed + ind + 1 ∧
        op5.interp_seed + ind ≠ op5.interp_seed + ind + 2 ∧
        op5.interp_seed + ind + 1 ≠ op5.interp_seed + ind + 2) :=
  ⟨⟨rfl, rfl, rfl, rfl, fun _ _ => ⟨rfl, rfl⟩⟩,
    C5_random_reproducible rand5 op5 op5 3 propdict5 rfl rfl rfl rfl
      (fun _ _ => ⟨rfl, rfl⟩)⟩

/-! ### Claim C2: execute + restore puts every property back

The proof tracks the set of (stack, op, property) addresses that the run
can write, shows `execute` touches only those, and shows `restore` puts
exactly the construction-time snapshots back. -/

/-- `f` can write property `q` of scene entry `(a, b)`. -/
def FuncWrites (f : Func) (a b : ℕ) (q : String) : Prop :=
  f.repeatable = true ∧ f.ref = OpRef.scene a b ∧ ∃ pv ∈ f.vals, pv.prop = q

/-- Some func of `st` can write property `q` of scene entry `(a, b)`. -/
def StackWrites (st : StackE) (a b : ℕ) (q : String) : Prop :=
  ∃ f ∈ st.funcs, FuncWrites f a b q

/-- Some func of the assembled stacks can write property `q` of `(a, b)`. -/
def WritesTo (sts : List StackE) (a b : ℕ) (q : String) : Prop :=
  ∃ st ∈ sts, StackWrites st a b q

/-- Every value list of the assembled stacks snapshots `base`. -/
def GoodInit (sts : List StackE) (base : ℕ → ℕ → String → PValue) : Prop :=
  ∀ st ∈ sts, ∀ f ∈ st.funcs, ∀ k j, f.ref = OpRef.scene k j →
    ∀ pv ∈ f.vals, pv.init = base k j pv.prop

theorem setField_fields (es : Entries) (k j : ℕ) (p : String) (v : PValue) (a b : ℕ)
    (q : String) :
    ((setField es k j p v) a b).fields q =
      if a = k ∧ b = j ∧ q = p then v else (es a b).fields q := by
  unfold setField
  by_cases h1 : a = k ∧ b = j
  · obtain ⟨rfl, rfl⟩ := h1
    by_cases h2 : q = p
    · simp [h2]
    · simp [h2]
  · rw [if_neg h1, if_neg fun h => h1 ⟨h.1, h.2.1⟩]

theorem setName_fields (es : Entries) (k j : ℕ) (n : String) (a b : ℕ) :
    ((setName es k j n) a b).fields = (es a b).fields := by
  unfold setName
  by_cases h1 : a = k ∧ b = j
  · obtain ⟨rfl, rfl⟩ := h1
    simp
  · rw [if_neg h1]

theorem setName_interp_type (es : Entries) (k j : ℕ) (n : String) (a b : ℕ) :
    ((setName es k j n) a b).interp_type = (es a b).interp_type := by
  unfold setName
  by_cases h1 : a = k ∧ b = j
  · obtain ⟨rfl, rfl⟩ := h1
    simp
  · rw [if_neg h1]

theorem execVals_fields_not (k j i : ℕ) (vs : List PropVal) (es : Entries) (a b : ℕ)
    (q : String) (h : ¬(a = k ∧ b = j ∧ ∃ pv ∈ vs, pv.prop = q)) :
    ((execVals k j i vs es).1 a b).fields q = (es a b).fields q := by
  induction vs generalizing es with
  | nil => rfl
  | cons pv rest ih =>
      have h1 : ¬(a = k ∧ b = j ∧ ∃ x ∈ rest, x.prop = q) := by
        rintro ⟨ha, hb, x, hx, hp⟩
        exact h ⟨ha, hb, x, List.mem_cons_of_mem _ hx, hp⟩
      have h2 : ¬(a = k ∧ b = j ∧ q = pv.prop) := by
        rintro ⟨ha, hb, hq⟩
        exact h ⟨ha, hb, pv, List.mem_cons_self _ _, hq.symm⟩
      show ((execVals k j i rest _).1 a b).fields q = _
      rw [ih _ h1, setField_fields, if_neg h2]

theorem restoreVals_fields_not (k j : ℕ) (vs : List PropVal) (es : Entries) (a b : ℕ)
    (q : String) (h : ¬(a = k ∧ b = j ∧ ∃ pv ∈ vs, pv.prop = q)) :
    ((restoreVals k j vs es) a b).fields q = (es a b).fields q := by
  induction vs generalizing es with
  | nil => rfl
  | cons pv rest ih =>
      have h1 : ¬(a = k ∧ b = j ∧ ∃ x ∈ rest, x.prop = q) := by
        rintro ⟨ha, hb, x, hx, hp⟩
        exact h ⟨ha, hb, x, List.mem_cons_of_mem _ hx, hp⟩
      have h2 : ¬(a = k ∧ b = j ∧ q = pv.prop) := by
        rintro ⟨ha, hb, hq⟩
        exact h ⟨ha, hb, pv, List.mem_cons_self _ _, hq.symm⟩
      show ((restoreVals k j rest _) a b).fields q = _
      rw [ih _ h1, setField_fields, if_neg h2]

theorem execFunc_fields_not (i : ℕ) (f : Func) (es : Entries) (a b : ℕ) (q : String)
    (h : ¬ FuncWrites f a b q) :
    ((execFunc i f es).1 a b).fields q = (es a b).fields q := by
  unfold execFunc
  cases hrep : f.repeatable with
  | false => simp [hrep]
  | true =>
      cases href : f.ref with
      | scene k j =>
          simp only [hrep, href, if_pos rfl]
          apply execVals_fields_not
          rintro ⟨ha, hb, hex⟩
          exact h ⟨hrep, by rw [href, ha, hb], hex⟩
      | slot s => simp [hrep, href]

theorem restoreFunc_fields_not (f : Func) (es : Entries) (a b : ℕ) (q : String)
    (h : ¬ FuncWrites f a b q) :
    ((restoreFunc f es) a b).fields q = (es a b).fields q := by
  unfold restoreFunc
  cases hrep : f.repeatable with
  | false => simp
  | true =>
      cases href : f.ref with
      | scene k j =>
          simp only [if_pos rfl]
          apply restoreVals_fields_not
          rintro ⟨ha, hb, hex⟩
          exact h ⟨hrep, by rw [href, ha, hb], hex⟩
      | slot s => simp

theorem execFuncs_fields_not (i : ℕ) (fs : List Func) (es : Entries) (a b : ℕ) (q : String)
    (h : ∀ f ∈ fs, ¬ FuncWrites f a b q) :
    ((execFuncs i fs es).1 a b).fields q = (es a b).fields q := by
  induction fs generalizing es with
  | nil => rfl
  | cons f rest ih =>
      show ((execFuncs i rest _).1 a b).fields q = _
      rw [ih _ fun x hx => h x (List.mem_cons_of_mem _ hx),
        execFunc_fields_not _ _ _ _ _ _ (h f (List.mem_cons_self _ _))]

theorem restoreFuncs_fields_not (fs : List Func) (es : Entries) (a b : ℕ) (q : String)
    (h : ∀ f ∈ fs, ¬ FuncWrites f a b q) :
    ((restoreFuncs fs es) a b).fields q = (es a b).fields q := by
  induction fs generalizing es with
  | nil => rfl
  | cons f rest ih =>
      show ((restoreFuncs rest _) a b).fields q = _
      rw [ih _ fun x hx => h x (List.mem_cons_of_mem _ hx),
        restoreFunc_fields_not _ _ _ _ _ (h f (List.mem_cons_self _ _))]

theorem execIters_fields_not (fs : List Func) (is : List ℕ) (es : Entries) (a b : ℕ)
    (q : String) (h : ∀ f ∈ fs, ¬ FuncWrites f a b q) :
    ((execIters fs is es).1 a b).fields q = (es a b).fields q := by
  induction is generalizing es with
  | nil => rfl
  | cons i rest ih =>
      show ((execIters fs rest _).1 a b).fields q = _
      rw [ih _, execFuncs_fields_not _ _ _ _ _ _ h]

theorem execStacks_fields_not (sts : List StackE) (es : Entries) (a b : ℕ) (q : String)
    (h : ¬ WritesTo sts a b q) :
    ((execStacks sts es).1 a b).fields q = (es a b).fields q := by
  induction sts generalizing es with
  | nil => rfl
  | cons st rest ih =>
      show ((execStacks rest _).1 a b).fields q = _
      rw [ih _ fun ⟨x, hx, hw⟩ => h ⟨x, List.mem_cons_of_mem _ hx, hw⟩]
      apply execIters_fields_not
      intro f hf hfw
      exact h ⟨st, List.mem_cons_self _ _, f, hf, hfw⟩

theorem restoreStacks_fields_not (sts : List StackE) (es : Entries) (a b : ℕ) (q : String)
    (h : ¬ WritesTo sts a b q) :
    ((restoreStacks sts es) a b).fields q = (es a b).fields q := by
  induction sts generalizing es with
  | nil => rfl
  | cons st rest ih =>
      show ((restoreStacks rest _) a b).fields q = _
      rw [ih _ fun ⟨x, hx, hw⟩ => h ⟨x, List.mem_cons_of_mem _ hx, hw⟩]
      apply restoreFuncs_fields_not
      intro f hf hfw
      exact h ⟨st, List.mem_cons_self _ _, f, hf, hfw⟩

theorem restoreVals_fields_set (k j : ℕ) (vs : List PropVal) (es : Entries)
    (base : ℕ → ℕ → String → PValue) (q : String)
    (hgood : ∀ pv ∈ vs, pv.init = base k j pv.prop)
    (hmem : ∃ pv ∈ vs, pv.prop = q) :
    ((restoreVals k j vs es) k j).fields q = base k j q := by
  revert hgood hmem
  induction vs generalizing es with
  | nil =>
      intro _ hmem
      obtain ⟨pv, hpv, _⟩ := hmem
      cases hpv
  | cons pv rest ih =>
      intro hgood hmem
      by_cases hq : ∃ x ∈ rest, x.prop = q
      · exact ih _ (fun x hx => hgood x (List.mem_cons_of_mem _ hx)) hq
      · have hpq : pv.prop = q := by
          obtain ⟨x, hx, hxq⟩ := hmem
          rcases List.mem_cons.mp hx with h | h
          · exact h ▸ hxq
          · exact absurd ⟨x, h, hxq⟩ hq
        show ((restoreVals k j rest _) k j).fields q = _
        rw [restoreVals_fields_not _ _ _ _ _ _ _ fun h => hq h.2.2]
        rw [setField_fields, if_pos ⟨rfl, rfl, hpq.symm⟩]
        rw [hgood pv (List.mem_cons_self _ _), hpq]

theorem restoreFunc_fields_set (f : Func) (es : Entries)
    (base : ℕ → ℕ → String → PValue) (a b : ℕ) (q : String)
    (hgood : ∀ k j, f.ref = OpRef.scene k j → ∀ pv ∈ f.vals, pv.init = base k j pv.prop)
    (hw : FuncWrites f a b q) :
    ((restoreFunc f es) a b).fields q = base a b q := by
  obtain ⟨hrep, href, hex⟩ := hw
  unfold restoreFunc
  simp only [hrep, href]
  exact restoreVals_fields_set a b f.vals es base q (hgood a b href) hex

theorem restoreFuncs_fields_set (fs : List Func) (es : Entries)
    (base : ℕ → ℕ → String → PValue) (a b : ℕ) (q : String)
    (hgood : ∀ f ∈ fs, ∀ k j, f.ref = OpRef.scene k j →
      ∀ pv ∈ f.vals, pv.init = base k j pv.prop)
    (hw : ∃ f ∈ fs, FuncWrites f a b q) :
    ((restoreFuncs fs es) a b).fields q = base a b q := by
  revert hgood hw
  induction fs generalizing es with
  | nil =>
      intro _ hw
      obtain ⟨f, hf, _⟩ := hw
      cases hf
  | cons f rest ih =>
      intro hgood hw
      by_cases hq : ∃ x ∈ rest, FuncWrites x a b q
      · exact ih _ (fun x hx => hgood x (List.mem_cons_of_mem _ hx)) hq
      · have hfw : FuncWrites f a b q := by
          obtain ⟨x, hx, hxw⟩ := hw
          rcases List.mem_cons.mp hx with h | h
          · exact h ▸ hxw
          · exact absurd ⟨x, h, hxw⟩ hq
        show ((restoreFuncs rest _) a b).fields q = _
        rw [restoreFuncs_fields_not _ _ _ _ _ fun x hx hxw => hq ⟨x, hx, hxw⟩]
        exact restoreFunc_fields_set f es base a b q
          (hgood f (List.mem_cons_self _ _)) hfw

theorem restoreStacks_fields_set (sts : List StackE) (es : Entries)
    (base : ℕ → ℕ → String → PValue) (a b : ℕ) (q : String)
    (hgood : GoodInit sts base) (hw : WritesTo sts a b q) :
    ((restoreStacks sts es) a b).fields q = base a b q := by
  revert hgood hw
  induction sts generalizing es with
  | nil =>
      intro _ hw
      obtain ⟨st, hst, _⟩ := hw
      cases hst
  | cons st rest ih =>
      intro hgood hw
      by_cases hq : WritesTo rest a b q
      · exact ih _ (fun x hx => hgood x (List.mem_cons_of_mem _ hx)) hq
      · have hsw : StackWrites st a b q := by
          obtain ⟨x, hx, hxw⟩ := hw
          rcases List.mem_cons.mp hx with h | h
          · exact h ▸ hxw
          · exact absurd ⟨x, h, hxw⟩ hq
        show ((restoreStacks rest _) a b).fields q = _
        rw [restoreStacks_fields_not _ _ _ _ _ hq]
        exact restoreFuncs_fields_set st.funcs es base a b q
          (hgood st (List.mem_cons_self _ _)) hsw

/-- Every value of `STACKS_PropValues.__call__` snapshots the entry's
current value of the property it interpolates. -/
theorem propValues_init (rand : ℤ → ℚ) (op : OpEntry) (rep : ℕ) (propdict : List PropDesc) :
    ∀ pv ∈ propValues rand op rep propdict, pv.init = op.fields pv.prop := by
  intro pv hpv
  obtain ⟨p, _, rfl⟩ := List.mem_map.mp hpv
  rfl

/-- `STACKS_Stack.__funcs` only writes display names: the property bags
are untouched. -/
theorem buildOps_fields (rand : ℤ → ℚ) (k rep : ℕ) (js : List ℕ) (es : Entries) (a b : ℕ) :
    (((buildOps rand k rep js es).1) a b).fields = (es a b).fields := by
  induction js generalizing es with
  | nil => rfl
  | cons j rest ih =>
      rw [buildOps]
      split <;> split <;> (try dsimp only) <;> rw [ih, setName_fields]

/-- The value lists built by `__funcs` snapshot the entry store it was
given. -/
theorem buildOps_good (rand : ℤ → ℚ) (k rep : ℕ) (js : List ℕ) (es : Entries) :
    ∀ f ∈ (buildOps rand k rep js es).2, ∀ a b, f.ref = OpRef.scene a b →
      ∀ pv ∈ f.vals, pv.init = (es a b).fields pv.prop := by
  induction js generalizing es with
  | nil => intro f hf; cases hf
  | cons j rest ih =>
      intro f hf a b href pv hpv
      rw [buildOps] at hf
      split at hf <;> split at hf <;> (try dsimp only at hf)
      case isTrue.isTrue =>
        have h2 := ih _ f hf a b href pv hpv
        rwa [setName_fields] at h2
      case isTrue.isFalse =>
        rcases List.mem_cons.mp hf with h | h
        · subst h
          dsimp only at href hpv
          injection href with h1 h2
          subst h1
          subst h2
          split at hpv
          · rw [propValues_init _ _ _ _ pv hpv, setName_fields]
          · cases hpv
        · have h2 := ih _ f h a b href pv hpv
          rwa [setName_fields] at h2
      case isFalse.isTrue =>
        have h2 := ih _ f hf a b href pv hpv
        rwa [setName_fields] at h2
      case isFalse.isFalse =>
        rcases List.mem_cons.mp hf with h | h
        · subst h
          dsimp only at href hpv
          injection href with h1 h2
          subst h1
          subst h2
          split at hpv
          · rw [propValues_init _ _ _ _ pv hpv, setName_fields]
          · cases hpv
        · have h2 := ih _ f h a b href pv hpv
          rwa [setName_fields] at h2

/-- `__repeatable` is only true for stacks repeated more than once whose
entry is not in CONSTANT interpolation mode. -/
theorem buildOps_repeatable (rand : ℤ → ℚ) (k rep : ℕ) (js : List ℕ) (es : Entries) :
    ∀ f ∈ (buildOps rand k rep js es).2, f.repeatable = true →
      rep > 1 ∧ ∀ a b, f.ref = OpRef.scene a b → (es a b).interp_type ≠ "CONSTANT" := by
  induction js generalizing es with
  | nil => intro f hf; cases hf
  | cons j rest ih =>
      intro f hf hrep
      rw [buildOps] at hf
      split at hf <;> split at hf <;> (try dsimp only at hf)
      case isTrue.isTrue =>
        obtain ⟨h1, h2⟩ := ih _ f hf hrep
        refine ⟨h1, fun a b href => ?_⟩
        have h3 := h2 a b href
        rwa [setName_interp_type] at h3
      case isTrue.isFalse =>
        rcases List.mem_cons.mp hf with h | h
        · subst h
          dsimp only at hrep ⊢
          rw [Bool.and_eq_true, Bool.and_eq_true] at hrep
          obtain ⟨⟨hr1, hr2⟩, _⟩ := hrep
          refine ⟨of_decide_eq_true hr1, fun a b href => ?_⟩
          injection href with ha hb
          subst ha
          subst hb
          have h4 := of_decide_eq_true hr2
          rwa [setName_interp_type] at h4
        · obtain ⟨h1, h2⟩ := ih _ f h hrep
          refine ⟨h1, fun a b href => ?_⟩
          have h3 := h2 a b href
          rwa [setName_interp_type] at h3
      case isFalse.isTrue =>
        obtain ⟨h1, h2⟩ := ih _ f hf hrep
        refine ⟨h1, fun a b href => ?_⟩
        have h3 := h2 a b href
        rwa [setName_interp_type] at h3
      case isFalse.isFalse =>
        rcases List.mem_cons.mp hf with h | h
        · subst h
          dsimp only at hrep ⊢
          rw [Bool.and_eq_true, Bool.and_eq_true] at hrep
          obtain ⟨⟨hr1, hr2⟩, _⟩ := hrep
          refine ⟨of_decide_eq_true hr1, fun a b href => ?_⟩
          injection href with ha hb
          subst ha
          subst hb
          have h4 := of_decide_eq_true hr2
          rwa [setName_interp_type] at h4
        · obtain ⟨h1, h2⟩ := ih _ f h hrep
          refine ⟨h1, fun a b href => ?_⟩
          have h3 := h2 a b href
          rwa [setName_interp_type] at h3

/-- `__funcs` preserves every entry's interpolation mode. -/
theorem buildOps_interp_type (rand : ℤ → ℚ) (k rep : ℕ) (js : List ℕ) (es : Entries)
    (a b : ℕ) :
    (((buildOps rand k rep js es).1) a b).interp_type = (es a b).interp_type := by
  induction js generalizing es with
  | nil => rfl
  | cons j rest ih =>
      rw [buildOps]
      split <;> split <;> (try dsimp only) <;> rw [ih, setName_interp_type]

/-- `_stacks` only writes display names into the store. -/
theorem buildSlots_fields (rand : ℤ → ℚ) (numStacks : ℕ) (opsLen : ℕ → ℕ)
    (slots : List (ℕ × Slot)) (es : Entries) (a b : ℕ) :
    (((buildSlots rand numStacks opsLen slots es).1) a b).fields = (es a b).fields := by
  induction slots generalizing es with
  | nil => rfl
  | cons s rest ih =>
      obtain ⟨ind, slot⟩ := s
      rw [buildSlots]
      split
      · exact ih es
      · split
        · exact ih es
        · split
          · exact ih es
          · dsimp only
            rw [ih, buildOps_fields]

/-- The value lists assembled by `_stacks` snapshot the store it was
given. -/
theorem buildSlots_good (rand : ℤ → ℚ) (numStacks : ℕ) (opsLen : ℕ → ℕ)
    (slots : List (ℕ × Slot)) (es : Entries) :
    GoodInit (buildSlots rand numStacks opsLen slots es).2
      (fun a b q => (es a b).fields q) := by
  induction slots generalizing es with
  | nil => intro st hst; cases hst
  | cons s rest ih =>
      obtain ⟨ind, slot⟩ := s
      intro st hst f hf k j href pv hpv
      rw [buildSlots] at hst
      split at hst
      · exact ih _ st hst f hf k j href pv hpv
      · split at hst
        · dsimp only at hst
          rcases List.mem_cons.mp hst with h | h
          · subst h
            rcases List.mem_singleton.mp hf with rfl
            cases hpv
          · exact ih _ st h f hf k j href pv hpv
        · split at hst
          · exact ih _ st hst f hf k j href pv hpv
          · dsimp only at hst
            rcases List.mem_cons.mp hst with h | h
            · subst h
              exact buildOps_good rand slot.stack_index slot.rep _ es f hf k j href pv hpv
            · have h2 := ih _ st h f hf k j href pv hpv
              dsimp only at h2 ⊢
              rwa [buildOps_fields] at h2

/-- The repeatable funcs assembled by `_stacks` all come from stacks
repeated more than once with non-CONSTANT entries. -/
theorem buildSlots_repeatable (rand : ℤ → ℚ) (numStacks : ℕ) (opsLen : ℕ → ℕ)
    (slots : List (ℕ × Slot)) (es : Entries) :
    ∀ st ∈ (buildSlots rand numStacks opsLen slots es).2, ∀ f ∈ st.funcs,
      f.repeatable = true →
        st.rep > 1 ∧ ∀ a b, f.ref = OpRef.scene a b → (es a b).interp_type ≠ "CONSTANT" := by
  induction slots generalizing es with
  | nil => intro st hst; cases hst
  | cons s rest ih =>
      obtain ⟨ind, slot⟩ := s
      intro st hst f hf hrep
      rw [buildSlots] at hst
      split at hst
      · exact ih _ st hst f hf hrep
      · split at hst
        · dsimp only at hst
          rcases List.mem_cons.mp hst with h | h
          · subst h
            rcases List.mem_singleton.mp hf with rfl
            have hnone : (INTERPOLATE "" "").isSome = false := rfl
            dsimp only at hrep
            rw [hnone, Bool.and_false] at hrep
            cases hrep
          · exact ih _ st h f hf hrep
        · split at hst
          · exact ih _ st hst f hf hrep
          · dsimp only at hst
            rcases List.mem_cons.mp hst with h | h
            · subst h
              exact buildOps_repeatable rand slot.stack_index slot.rep _ es f hf hrep
            · obtain ⟨h1, h2⟩ := ih _ st h f hf hrep
              refine ⟨h1, fun a b href => ?_⟩
              have h3 := h2 a b href
              rwa [buildOps_interp_type] at h3

/-- Claim C2: for every execution of an object's stacks, after all
iterations complete, every interpolated property field of every executed
operator entry equals the value it held before the run (the snapshot
taken when the interpolation values were first computed), and the editor
mode equals the mode that was active before the run.  Stated strongly:
after the run every dynamic property of every scene operator entry equals
its pre-run value, and the final mode is the captured one. -/
theorem C2_restore_after_run (rand : ℤ → ℚ) (entries0 : Entries) (mode0 : String)
    (mods0 : List Bool) (numStacks : ℕ) (opsLen : ℕ → ℕ) (slots : List Slot) :
    (∀ k j : ℕ, ∀ q : String,
      ((STACKS_ExecuteStacks_run rand entries0 mode0 mods0 numStacks opsLen slots).entries
          k j).fields q = (entries0 k j).fields q) ∧
    (STACKS_ExecuteStacks_run rand entries0 mode0 mods0 numStacks opsLen slots).mode
      = mode0 := by
  constructor
  · intro k j q
    dsimp only [STACKS_ExecuteStacks_run]
    have hgood : GoodInit (buildSlots rand numStacks opsLen slots.enum entries0).2
        (fun a b q' => (entries0 a b).fields q') :=
      buildSlots_good rand numStacks opsLen slots.enum entries0
    rcases Classical.em
        (WritesTo (buildSlots rand numStacks opsLen slots.enum entries0).2 k j q) with
      hw | hw
    · exact restoreStacks_fields_set _ _ _ k j q hgood hw
    · rw [restoreStacks_fields_not _ _ _ _ _ hw, execStacks_fields_not _ _ _ _ _ hw]
      exact congrFun (buildSlots_fields rand numStacks opsLen slots.enum entries0 k j) q
  · rfl

/-- Claim C9: for every execution of an object's stacks that runs to
completion, every modifier on the object has its viewport visibility
disabled for the duration of the operator execution, and after execution
each modifier's `show_viewport` flag is restored to exactly the value it
had before the run. -/
theorem C9_modifiers_disabled_and_restored (rand : ℤ → ℚ) (entries0 : Entries)
    (mode0 : String) (mods0 : List Bool) (numStacks : ℕ) (opsLen : ℕ → ℕ)
    (slots : List Slot) :
    (∀ e ∈ (STACKS_ExecuteStacks_run rand entries0 mode0 mods0 numStacks opsLen
      slots).duringMods, e = false) ∧
    (STACKS_ExecuteStacks_run rand entries0 mode0 mods0 numStacks opsLen
      slots).finalMods = mods0 := by
  constructor
  · intro e he
    dsimp only [STACKS_ExecuteStacks_run, enable_modifiers] at he
    obtain ⟨x, _, hx⟩ := List.mem_map.mp he
    simp at hx
    exact hx
  · show enable_modifiers mods0 true = mods0
    unfold enable_modifiers
    simp

/-! ### Claim C4: repeat 1 / constant mode entries -/

/-- Number of invocations of the operator at `r` recorded in a trace. -/
def callCount (tr : List Ev) (r : OpRef) : ℕ :=
  List.countP (fun ev => decide (ev = Ev.call r)) tr

/-- The values written to property `p` of scene entry `(k, j)`, in trace
order. -/
def writeLog (tr : List Ev) (k j : ℕ) (p : String) : List PValue :=
  tr.filterMap fun ev =>
    match ev with
    | Ev.write a b q v => if a = k ∧ b = j ∧ q = p then some v else none
    | Ev.call _ => none

theorem execVals_trace_shape (k j i : ℕ) (vs : List PropVal) (es : Entries) :
    ∀ ev ∈ (execVals k j i vs es).2, ∃ p v, ev = Ev.write k j p v := by
  induction vs generalizing es with
  | nil => intro ev hev; cases hev
  | cons pv rest ih =>
      intro ev hev
      rcases List.mem_cons.mp hev with h | h
      · exact ⟨pv.prop, _, h⟩
      · exact ih _ ev h

theorem execFunc_trace_write (i : ℕ) (f : Func) (es : Entries) (k j : ℕ) (p : String)
    (v : PValue) (hmem : Ev.write k j p v ∈ (execFunc i f es).2) :
    f.repeatable = true ∧ f.ref = OpRef.scene k j := by
  unfold execFunc at hmem
  cases hrep : f.repeatable with
  | false =>
      simp only [hrep] at hmem
      simp at hmem
  | true =>
      cases href : f.ref with
      | scene a b =>
          simp only [hrep, href] at hmem
          rcases List.mem_append.mp hmem with h | h
          · obtain ⟨p', v', hev⟩ := execVals_trace_shape a b i f.vals es _ h
            injection hev with h1 h2 h3 h4
            subst h1; subst h2
            exact ⟨rfl, rfl⟩
          · simp at h
      | slot s =>
          simp only [hrep, href] at hmem
          simp at hmem

theorem execFuncs_trace_write (i : ℕ) (fs : List Func) (es : Entries) (k j : ℕ)
    (p : String) (v : PValue) (hmem : Ev.write k j p v ∈ (execFuncs i fs es).2) :
    ∃ f ∈ fs, f.repeatable = true ∧ f.ref = OpRef.scene k j := by
  induction fs generalizing es with
  | nil => cases hmem
  | cons f rest ih =>
      rcases List.mem_append.mp hmem with h | h
      · exact ⟨f, List.mem_cons_self _ _, execFunc_trace_write i f es k j p v h⟩
      · obtain ⟨f', hf', hw⟩ := ih _ h
        exact ⟨f', List.mem_cons_of_mem _ hf', hw⟩

theorem execIters_trace_write (fs : List Func) (is : List ℕ) (es : Entries) (k j : ℕ)
    (p : String) (v : PValue) (hmem : Ev.write k j p v ∈ (execIters fs is es).2) :
    ∃ f ∈ fs, f.repeatable = true ∧ f.ref = OpRef.scene k j := by
  induction is generalizing es with
  | nil => cases hmem
  | cons i rest ih =>
      rcases List.mem_append.mp hmem with h | h
      · exact execFuncs_trace_write i fs es k j p v h
      · exact ih _ h

theorem execStacks_trace_write (sts : List StackE) (es : Entries) (k j : ℕ) (p : String)
    (v : PValue) (hmem : Ev.write k j p v ∈ (execStacks sts es).2) :
    ∃ st ∈ sts, ∃ f ∈ st.funcs, f.repeatable = true ∧ f.ref = OpRef.scene k j := by
  induction sts generalizing es with
  | nil => cases hmem
  | cons st rest ih =>
      rcases List.mem_append.mp hmem with h | h
      · obtain ⟨f, hf, hw⟩ := execIters_trace_write st.funcs _ es k j p v h
        exact ⟨st, List.mem_cons_self _ _, f, hf, hw⟩
      · obtain ⟨st', hst', hw⟩ := ih _ h
        exact ⟨st', List.mem_cons_of_mem _ hst', hw⟩

theorem execVals_trace_calls (k j i : ℕ) (vs : List PropVal) (es : Entries) (r : OpRef) :
    callCount (execVals k j i vs es).2 r = 0 := by
  rw [callCount, List.countP_eq_zero]
  intro ev hev
  obtain ⟨p, v, rfl⟩ := execVals_trace_shape k j i vs es ev hev
  simp

theorem callCount_one_call (r1 r : OpRef) :
    callCount [Ev.call r1] r = if r1 = r then 1 else 0 := by
  by_cases h : r1 = r <;> simp [callCount, List.countP_cons, h]

theorem execFunc_trace_calls (i : ℕ) (f : Func) (es : Entries) (r : OpRef) :
    callCount (execFunc i f es).2 r = if f.ref = r then 1 else 0 := by
  unfold execFunc
  cases hrep : f.repeatable with
  | false =>
      show callCount ([] ++ [Ev.call f.ref]) r = _
      rw [List.nil_append, callCount_one_call]
  | true =>
      cases href : f.ref with
      | scene a b =>
          show callCount ((execVals a b i f.vals es).2 ++ [Ev.call (OpRef.scene a b)]) r = _
          rw [callCount, List.countP_append, ← callCount, ← callCount,
            execVals_trace_calls, callCount_one_call, Nat.zero_add]
      | slot s =>
          show callCount ([] ++ [Ev.call (OpRef.slot s)]) r = _
          rw [List.nil_append, callCount_one_call]

theorem execFuncs_trace_calls (i : ℕ) (fs : List Func) (es : Entries) (r : OpRef) :
    callCount (execFuncs i fs es).2 r =
      List.countP (fun f => decide (f.ref = r)) fs := by
  induction fs generalizing es with
  | nil => rfl
  | cons f rest ih =>
      show callCount ((execFunc i f es).2 ++ _) r = _
      rw [callCount, List.countP_append, ← callCount, ← callCount,
        execFunc_trace_calls, ih, List.countP_cons]
      by_cases h : f.ref = r <;> simp [h, Nat.add_comm]

theorem execIters_trace_calls (fs : List Func) (is : List ℕ) (es : Entries) (r : OpRef) :
    callCount (execIters fs is es).2 r =
      is.length * List.countP (fun f => decide (f.ref = r)) fs := by
  induction is generalizing es with
  | nil => simp [execIters, callCount]
  | cons i rest ih =>
      show callCount ((execFuncs i fs es).2 ++ _) r = _
      rw [callCount, List.countP_append, ← callCount, ← callCount,
        execFuncs_trace_calls, ih, List.length_cons, Nat.succ_mul, Nat.add_comm]

theorem execStacks_trace_calls (sts : List StackE) (es : Entries) (r : OpRef) :
    callCount (execStacks sts es).2 r =
      (sts.map fun st => st.rep * List.countP (fun f => decide (f.ref = r)) st.funcs).sum := by
  induction sts generalizing es with
  | nil => rfl
  | cons st rest ih =>
      show callCount ((execIters st.funcs (List.range st.rep) es).2 ++ _) r = _
      rw [callCount, List.countP_append, ← callCount, ← callCount,
        execIters_trace_calls, ih, List.length_range, List.map_cons, List.sum_cons]

/-- The general amended C4 statement, shared with the concrete runs: if
every assembled func targeting entry `(k, j)` comes from a stack with
repeat 1 or the entry is in CONSTANT mode, then nothing is ever written
to the entry, its fields stay at their base values, and each targeting
func is invoked `st.rep` times (the trace holds `rep * (number of funcs)`
invocations per stack). -/
theorem C4_constant_or_repeat1 (rand : ℤ → ℚ) (entries0 : Entries) (mode0 : String)
    (mods0 : List Bool) (numStacks : ℕ) (opsLen : ℕ → ℕ) (slots : List Slot) (k j : ℕ)
    (h1 : ∀ st ∈ (STACKS_ExecuteStacks_run rand entries0 mode0 mods0 numStacks opsLen
        slots).stacksE, ∀ f ∈ st.funcs, f.ref = OpRef.scene k j →
          st.rep = 1 ∨ (entries0 k j).interp_type = "CONSTANT") :
    (∀ p v, Ev.write k j p v ∉ (STACKS_ExecuteStacks_run rand entries0 mode0 mods0
      numStacks opsLen slots).trace) ∧
    (∀ q, ((STACKS_ExecuteStacks_run rand entries0 mode0 mods0 numStacks opsLen
      slots).entries k j).fields q = (entries0 k j).fields q) ∧
    callCount (STACKS_ExecuteStacks_run rand entries0 mode0 mods0 numStacks opsLen
        slots).trace (OpRef.scene k j) =
      ((STACKS_ExecuteStacks_run rand entries0 mode0 mods0 numStacks opsLen
        slots).stacksE.map fun st =>
          st.rep * List.countP (fun f => decide (f.ref = OpRef.scene k j)) st.funcs).sum := by
  have hnw : ∀ st ∈ (buildSlots rand numStacks opsLen slots.enum entries0).2,
      ∀ f ∈ st.funcs, f.ref = OpRef.scene k j → f.repeatable = false := by
    intro st hst f hf href
    cases hr : f.repeatable with
    | false => rfl
    | true =>
        obtain ⟨hrep, hct⟩ := buildSlots_repeatable rand numStacks opsLen slots.enum
          entries0 st hst f hf hr
        rcases h1 st hst f hf href with h | h
        · omega
        · exact absurd h (hct k j href)
  refine ⟨?_, ?_, ?_⟩
  · intro p v hmem
    dsimp only [STACKS_ExecuteStacks_run] at hmem
    obtain ⟨st, hst, f, hf, hrep, href⟩ := execStacks_trace_write _ _ k j p v hmem
    rw [hnw st hst f hf href] at hrep
    cases hrep
  · intro q
    have hw : ¬ WritesTo (buildSlots rand numStacks opsLen slots.enum entries0).2
        k j q := by
      rintro ⟨st, hst, f, hf, hrep, href, -⟩
      rw [hnw st hst f hf href] at hrep
      cases hrep
    dsimp only [STACKS_ExecuteStacks_run]
    rw [restoreStacks_fields_not _ _ _ _ _ hw, execStacks_fields_not _ _ _ _ _ hw]
    exact congrFun (buildSlots_fields rand numStacks opsLen slots.enum entries0 k j) q
  · dsimp only [STACKS_ExecuteStacks_run]
    exact execStacks_trace_calls _ _ _

/-- A PRNG model used for concrete runs. -/
def rand0 : ℤ → ℚ := fun _ => 0

/-- A blank disabled operator entry, the filler of concrete stores. -/
def op0 : OpEntry :=
  { name := ""
    enabled := false
    operator_type := "NONE"
    opfunc_sel := "SKIP"
    interpolate := "STRAIGHT"
    interp_type := "CONSTANT"
    interp_ease := "INOUT"
    interp_ease_in := 0
    interp_ease_out := 1
    interp_seed := 1
    value_sync := false
    fields := fun _ => .flt 0 }

/-- A one-op-per-stack ops length table for concrete runs. -/
def opsLen1 : ℕ → ℕ := fun _ => 1

/-- An enabled Subdivide entry in CONSTANT interpolation mode. -/
def opC4 : OpEntry :=
  { op0 with enabled := true
             operator_type := "GENERATE"
             opfunc_sel := "SUBDIVIDE"
             interp_type := "CONSTANT" }

/-- A store holding the single CONSTANT Subdivide entry. -/
def entriesC4 : Entries := fun k j => if k = 0 ∧ j = 0 then opC4 else op0

/-- A run of one stack with repeat count 2 over the CONSTANT entry. -/
def runC4 : RunResult :=
  STACKS_ExecuteStacks_run rand0 entriesC4 "OBJECT" [] 1 opsLen1 [⟨true, "STACK", 0, 2⟩]

/-- Claim C4 as stated is false: a CONSTANT-mode operator entry in a stack
with repeat count 2 is invoked twice during the run, not exactly once. -/
theorem C4_counterexample :
    callCount runC4.trace (OpRef.scene 0 0) = 2 ∧
      callCount runC4.trace (OpRef.scene 0 0) ≠ 1 := by
  decide

/-- Witness for the amended C4 at the concrete CONSTANT repeat-2 run. -/
theorem C4_constant_or_repeat1_witness :
    (∀ st ∈ runC4.stacksE, ∀ f ∈ st.funcs, f.ref = OpRef.scene 0 0 →
      st.rep = 1 ∨ (entriesC4 0 0).interp_type = "CONSTANT") ∧
    ((∀ p v, Ev.write 0 0 p v ∉ runC4.trace) ∧
      (∀ q, ((runC4.entries 0 0).fields q = (entriesC4 0 0).fields q)) ∧
      callCount runC4.trace (OpRef.scene 0 0) =
        (runC4.stacksE.map fun st =>
          st.rep * List.countP (fun f => decide (f.ref = OpRef.scene 0 0)) st.funcs).sum) :=
  ⟨by decide,
    C4_constant_or_repeat1 rand0 entriesC4 "OBJECT" [] 1 opsLen1 [⟨true, "STACK", 0, 2⟩]
      0 0 (by decide)⟩

/-! ### Claim C6: the Subdivide example -/

/-- The Subdivide entry of the spec's worked example: repeat 5, cuts
interpolated eased-in-out between `value_min_int = 1` and
`value_max_int = 5`, base `gen_subd_cuts = 7`. -/
def opSub : OpEntry :=
  { name := ""
    enabled := true
    operator_type := "GENERATE"
    opfunc_sel := "SUBDIVIDE"
    interpolate := "STRAIGHT"
    interp_type := "BEZIER"
    interp_ease := "INOUT"
    interp_ease_in := 0
    interp_ease_out := 1
    interp_seed := 1
    value_sync := false
    fields := fun q =>
      if q = "value_min_int" then .int 1
      else if q = "value_max_int" then .int 5
      else if q = "value_min" then .flt 0
      else if q = "value_max" then .flt 1
      else if q = "gen_subd_cuts" then .int 7
      else if q = "gen_subd_smooth" then .flt (1/2)
      else .flt 0 }

/-- The store holding the example's Subdivide entry. -/
def entriesC6 : Entries := fun k j => if k = 0 ∧ j = 0 then opSub else op0

/-- The example's object slot: one enabled STACK slot, repeat 5. -/
def slotC6 : Slot := ⟨true, "STACK", 0, 5⟩

/-- The run of the spec's Subdivide example. -/
def runC6 : RunResult :=
  STACKS_ExecuteStacks_run rand0 entriesC6 "OBJECT" [true] 1 opsLen1 [slotC6]

set_option maxHeartbeats 1000000 in
/-- Evaluation of the example's assembled stack: the cut values are
1, 1.8, 2.6, 2.6, 1.8 before int truncation, so 1, 1, 2, 2, 1. -/
theorem buildSlots_runC6 : (buildSlots rand0 1 opsLen1 ([slotC6].enum) entriesC6).2 =
    [⟨5, [⟨OpRef.scene 0 0, true,
      [⟨"gen_subd_cuts", .int 7, [.int 1, .int 1, .int 2, .int 2, .int 1]⟩,
       ⟨"gen_subd_smooth", .flt (1/2),
        [.flt 0, .flt (1/5), .flt (2/5), .flt (2/5), .flt (1/5)]⟩]⟩]⟩] := by
  have hINT : INTERPOLATE "GENERATE" "SUBDIVIDE" =
      some [pd "gen_subd_cuts" "value_min_int" "value_max_int",
        pd "gen_subd_smooth" "value_min" "value_max"] := rfl
  simp [buildSlots, buildOps, setName, opname, propValues, propVal, interp_ease,
    map_range, pyInt, hINT, pd, entriesC6, opSub, op0, slotC6, opsLen1, List.range_succ,
    List.enum, List.enumFrom, pyCapitalize]
  norm_num

set_option maxHeartbeats 1000000 in
/-- The per-iteration cut counts written during the example run. -/
theorem runC6_writeLog : writeLog runC6.trace 0 0 "gen_subd_cuts" =
    [.int 1, .int 1, .int 2, .int 2, .int 1] := by
  show writeLog (execStacks (buildSlots rand0 1 opsLen1 ([slotC6].enum) entriesC6).2
    (buildSlots rand0 1 opsLen1 ([slotC6].enum) entriesC6).1).2 0 0 "gen_subd_cuts" = _
  rw [buildSlots_runC6]
  simp [execStacks, execIters, execFuncs, execFunc, execVals, writeLog, List.range_succ]

/-- The example's `gen_subd_cuts` is restored after the run. -/
theorem runC6_restored : (runC6.entries 0 0).fields "gen_subd_cuts" =
    (entriesC6 0 0).fields "gen_subd_cuts" := by
  have hgood : GoodInit (buildSlots rand0 1 opsLen1 ([slotC6].enum) entriesC6).2
      (fun a b q' => (entriesC6 a b).fields q') :=
    buildSlots_good rand0 1 opsLen1 ([slotC6].enum) entriesC6
  show ((restoreStacks (buildSlots rand0 1 opsLen1 ([slotC6].enum) entriesC6).2
    (execStacks (buildSlots rand0 1 opsLen1 ([slotC6].enum) entriesC6).2
      (buildSlots rand0 1 opsLen1 ([slotC6].enum) entriesC6).1).1) 0 0).fields
        "gen_subd_cuts" = _
  rcases Classical.em (WritesTo (buildSlots rand0 1 opsLen1 ([slotC6].enum) entriesC6).2
      0 0 "gen_subd_cuts") with hw | hw
  · exact restoreStacks_fields_set _ _ _ 0 0 _ hgood hw
  · rw [restoreStacks_fields_not _ _ _ _ _ hw, execStacks_fields_not _ _ _ _ _ hw]
    exact congrFun (buildSlots_fields rand0 1 opsLen1 ([slotC6].enum) entriesC6 0 0) _

/-- Claim C6 as stated is false: the per-iteration cut counts of the
spec's Subdivide example are not [1, 1, 3, 5, 5]. -/
theorem C6_counterexample :
    writeLog runC6.trace 0 0 "gen_subd_cuts" ≠
      [.int 1, .int 1, .int 3, .int 5, .int 5] := by
  rw [runC6_writeLog]
  decide

/-- Claim C6 amended: for one "Subdivide" entry with repeat 5 and cuts
interpolated eased-in-out from min 1 to max 5, the per-iteration cut
counts written during execution are exactly [1, 1, 2, 2, 1] (the blend
1, 1.8, 2.6, 2.6, 1.8 truncated to int), and `gen_subd_cuts` equals its
original value after the run. -/
theorem C6_subdivide_example :
    writeLog runC6.trace 0 0 "gen_subd_cuts" =
      [.int 1, .int 1, .int 2, .int 2, .int 1] ∧
    (runC6.entries 0 0).fields "gen_subd_cuts" = (entriesC6 0 0).fields "gen_subd_cuts" :=
  ⟨runC6_writeLog, runC6_restored⟩

/-! ### Claims C1 and C10: the scene/object slot registry

`EnumStackItems` (src/stacks_support.py:794-904) and `STACKS_SlotRemove`
(src/stacks_support.py:998-1014).  The scene owns a list of named stacks;
each mesh object has the parallel collections `ob.stacks` (UI slots with
an enum string `stack` and a display `name`) and `ob.stacks_c` (backup
slots with the integer `stack_index`). -/

/-- One scene stack (`scene.stacks[i]`): its name and `index` property. -/
structure SceneStack1 where
  name : String
  index : ℤ
deriving DecidableEq, Repr

/-- One `ob.stacks` UI slot. -/
structure ObSlotUI where
  name : String
  index : ℤ
  /-- the enum value, a zero-padded decimal string -/
  stack : String
deriving DecidableEq, Repr

/-- One `ob.stacks_c` backup slot. -/
structure ObSlotC where
  index : ℤ
  stack_index : ℤ
deriving DecidableEq, Repr

/-- One mesh object's two slot collections. -/
structure ObjectModel where
  stacks_ui : List ObSlotUI
  stacks_c : List ObSlotC
deriving DecidableEq, Repr

/-- The scene: stack catalog, active index, mesh objects. -/
structure SceneModel where
  sc_stacks : List SceneStack1
  stacks_active : ℤ
  objects : List ObjectModel
deriving DecidableEq, Repr

/-- Python `f'{i:03d}'`: decimal, zero-padded to width 3 (sign included in
the width). -/
def pyPad3 (i : ℤ) : String :=
  if 0 ≤ i then
    let s := toString i.toNat
    if 3 ≤ s.length then s else (List.replicate (3 - s.length) '0').asString ++ s
  else
    let s := toString (-i).toNat
    if 2 ≤ s.length then "-" ++ s
    else "-" ++ (List.replicate (2 - s.length) '0').asString ++ s

/-- Python list indexing `sc.stacks[i].name`: non-negative indices in
range, negative indices wrap; anything else raises IndexError (modelled
as a marker string, unreachable on the inputs considered). -/
def pyIndexName (l : List SceneStack1) (i : ℤ) : String :=
  if 0 ≤ i ∧ i < (l.length : ℤ) then (l.getD i.toNat ⟨"<IndexError>", 0⟩).name
  else if -(l.length : ℤ) ≤ i ∧ i < 0 then
    (l.getD (l.length - (-i).toNat) ⟨"<IndexError>", 0⟩).name
  else "<IndexError>"

/-- `EnumStackItems.update_project` (src/stacks_support.py:828-845): for
every mesh object, for each `(trg, src)` pair of `zip(ob.stacks,
ob.stacks_c)`: on 'REMOVE', decrement `src.stack_index` when the chained
comparison `0 > src.stack_index >= old_index` holds (in Python this means
`0 > src.stack_index and src.stack_index >= old_index`); then refresh the
slot's enum string and its display name ("None" exactly when the index
equals the catalog length). -/
def update_project (opstr : String) (old_index : ℤ) (sc : SceneModel) : SceneModel :=
  { sc with objects := sc.objects.map fun ob =>
      let pairs := ob.stacks_ui.zip ob.stacks_c
      let newPairs := pairs.map fun p =>
        let src := if opstr = "REMOVE" ∧ 0 > p.2.stack_index ∧ p.2.stack_index ≥ old_index
          then { p.2 with stack_index := p.2.stack_index - 1 } else p.2
        let trg := { p.1 with
          stack := pyPad3 src.stack_index
          name := if src.stack_index ≠ (sc.sc_stacks.length : ℤ)
            then pyIndexName sc.sc_stacks src.stack_index else "None" }
        (trg, src)
      { ob with
          stacks_ui := newPairs.map Prod.fst ++ ob.stacks_ui.drop pairs.length
          stacks_c := newPairs.map Prod.snd ++ ob.stacks_c.drop pairs.length } }

/-- `EnumStackItems.project_stack_remove` (src/stacks_support.py:861-875):
remove the active scene stack, renumber the survivors, set the new active
index to `old_index - 1 if old_index else 0`, then run `update_project`
with op='REMOVE' (the enum re-registration has no effect on this state). -/
def project_stack_remove (sc : SceneModel) : SceneModel :=
  let old_index := sc.stacks_active
  let props1 := sc.sc_stacks.eraseIdx old_index.toNat
  let props2 := props1.enum.map fun p => { p.2 with index := (p.1 : ℤ) }
  let active := if old_index ≠ 0 then old_index - 1 else 0
  update_project "REMOVE" old_index
    { sc with sc_stacks := props2, stacks_active := active }

/-- A generic UI-list slot record with an `index` property. -/
structure SlotRec where
  index : ℤ
deriving DecidableEq, Repr

/-- `STACKS_SlotRemove` (src/stacks_support.py:998-1014), generic branch:
remove the entry at the active index, renumber every survivor to its
position, and set the active index to `index - 1 if index else 0`. -/
def slot_remove (props : List SlotRec) (index : ℕ) : List SlotRec × ℕ :=
  let props1 := props.eraseIdx index
  let props2 := props1.enum.map fun p => { p.2 with index := (p.1 : ℤ) }
  (props2, if index ≠ 0 then index - 1 else 0)

/-- `EnumStackItems.object_stack_remove` (src/stacks_support.py:891-904):
remove the active slot from both object collections, renumber both, and
set the active index to `old_index - 1 if old_index else 0`.  The
trailing `EnumStackItems.update_project()` call (op='ADD') rewrites only
display names and enum strings of slots, not any index field. -/
def object_stack_remove (ob : ObjectModel) (old_index : ℕ) : ObjectModel × ℕ :=
  let stacks1 := ob.stacks_ui.eraseIdx old_index
  let bckups1 := ob.stacks_c.eraseIdx old_index
  let stacks2 := stacks1.enum.map fun p => { p.2 with index := (p.1 : ℤ) }
  let bckups2 := bckups1.enum.map fun p => { p.2 with index := (p.1 : ℤ) }
  ({ ob with stacks_ui := stacks2, stacks_c := bckups2 },
    if old_index ≠ 0 then old_index - 1 else 0)

/-- The C1 failing input: scene stacks ["A", "B"], active index 0, one
object whose two slots reference stacks 0 and 1. -/
def sc0C1 : SceneModel :=
  { sc_stacks := [⟨"A", 0⟩, ⟨"B", 1⟩]
    stacks_active := 0
    objects := [{ stacks_ui := [⟨"A", 0, "000"⟩, ⟨"B", 1, "001"⟩]
                  stacks_c := [⟨0, 0⟩, ⟨1, 1⟩] }] }

/-- Claim C1 fails on the code: removing scene stack 0 from `sc0C1` leaves
both stored indices unchanged at [0, 1] — the chained comparison
`0 > src.stack_index >= old_index` can never hold for non-negative
indices, so the slot pointing above the removed index is *not*
decremented (it now displays "None" because it equals the new catalog
length), and the slot that pointed exactly at the removed index keeps
index 0 and resolves to the shifted stack's name "B", not to "None". -/
theorem C1_remove_shift_code_bug :
    ((project_stack_remove sc0C1).objects.map fun ob =>
      ob.stacks_c.map fun s => s.stack_index) = [[0, 1]] ∧
    ((project_stack_remove sc0C1).objects.map fun ob =>
      ob.stacks_ui.map fun s => s.name) = [["B", "None"]] ∧
    ¬ ((project_stack_remove sc0C1).objects.map fun ob =>
      ob.stacks_c.map fun s => s.stack_index) = [[0, 0]] := by
  decide

/-- Claim C10: after removing a slot from any slot collection (generic
slot remove, scene stack remove, or object stack-slot remove), every
remaining entry's stored index field equals its position in the
collection, and the active index becomes the removed index minus one when
that was positive and 0 otherwise, hence is in range whenever the
collection stays non-empty. -/
theorem C10_remove_reindex_and_active (props : List SlotRec) (index : ℕ)
    (hp : index < props.length)
    (sc : SceneModel) (ha0 : 0 ≤ sc.stacks_active)
    (ha1 : sc.stacks_active.toNat < sc.sc_stacks.length)
    (ob : ObjectModel) (old_index : ℕ) (ho1 : old_index < ob.stacks_ui.length)
    (_ho2 : old_index < ob.stacks_c.length) :
    ((∀ i, ∀ h : i < (slot_remove props index).1.length,
        ((slot_remove props index).1.get ⟨i, h⟩).index = (i : ℤ)) ∧
      ((slot_remove props index).2 = if index ≠ 0 then index - 1 else 0) ∧
      ((slot_remove props index).1 ≠ [] →
        (slot_remove props index).2 < (slot_remove props index).1.length)) ∧
    ((∀ i, ∀ h : i < (project_stack_remove sc).sc_stacks.length,
        ((project_stack_remove sc).sc_stacks.get ⟨i, h⟩).index = (i : ℤ)) ∧
      ((project_stack_remove sc).stacks_active =
        if sc.stacks_active ≠ 0 then sc.stacks_active - 1 else 0) ∧
      ((project_stack_remove sc).sc_stacks ≠ [] →
        0 ≤ (project_stack_remove sc).stacks_active ∧
        (project_stack_remove sc).stacks_active.toNat <
          (project_stack_remove sc).sc_stacks.length)) ∧
    ((∀ i, ∀ h : i < (object_stack_remove ob old_index).1.stacks_ui.length,
        ((object_stack_remove ob old_index).1.stacks_ui.get ⟨i, h⟩).index = (i : ℤ)) ∧
      (∀ i, ∀ h : i < (object_stack_remove ob old_index).1.stacks_c.length,
        ((object_stack_remove ob old_index).1.stacks_c.get ⟨i, h⟩).index = (i : ℤ)) ∧
      ((object_stack_remove ob old_index).2 =
        if old_index ≠ 0 then old_index - 1 else 0) ∧
      ((object_stack_remove ob old_index).1.stacks_ui ≠ [] →
        (object_stack_remove ob old_index).2 <
          (object_stack_remove ob old_index).1.stacks_ui.length)) := by
  have hlen1 : (slot_remove props index).1.length = props.length - 1 := by
    simp [slot_remove, List.length_eraseIdx, hp]
  have hlen2 : (project_stack_remove sc).sc_stacks.length = sc.sc_stacks.length - 1 := by
    simp [project_stack_remove, update_project, List.length_eraseIdx, ha1]
  have hlen3 : (object_stack_remove ob old_index).1.stacks_ui.length =
      ob.stacks_ui.length - 1 := by
    simp [object_stack_remove, List.length_eraseIdx, ho1]
  refine ⟨⟨?_, rfl, ?_⟩, ⟨?_, rfl, ?_⟩, ⟨?_, ?_, rfl, ?_⟩⟩
  · intro i h
    simp [slot_remove, List.get_eq_getElem, List.getElem_map, List.getElem_enum]
  · intro hne
    have h0 : 0 < (slot_remove props index).1.length := List.length_pos.mpr hne
    have h2 : (slot_remove props index).2 = if index ≠ 0 then index - 1 else 0 := rfl
    rw [hlen1] at h0
    rw [h2, hlen1]
    by_cases hi : index = 0 <;> simp [hi] <;> omega
  · intro i h
    simp [project_stack_remove, update_project, List.get_eq_getElem, List.getElem_map,
      List.getElem_enum]
  · intro hne
    have h0 : 0 < (project_stack_remove sc).sc_stacks.length := List.length_pos.mpr hne
    have h2 : (project_stack_remove sc).stacks_active =
        if sc.stacks_active ≠ 0 then sc.stacks_active - 1 else 0 := rfl
    rw [hlen2] at h0
    rw [h2, hlen2]
    by_cases hi : sc.stacks_active = 0 <;> simp [hi] <;> omega
  · intro i h
    simp [object_stack_remove, List.get_eq_getElem, List.getElem_map, List.getElem_enum]
  · intro i h
    simp [object_stack_remove, List.get_eq_getElem, List.getElem_map, List.getElem_enum]
  · intro hne
    have h0 : 0 < (object_stack_remove ob old_index).1.stacks_ui.length :=
      List.length_pos.mpr hne
    have h2 : (object_stack_remove ob old_index).2 =
        if old_index ≠ 0 then old_index - 1 else 0 := rfl
    rw [hlen3] at h0
    rw [h2, hlen3]
    by_cases hi : old_index = 0 <;> simp [hi] <;> omega

/-- Concrete slot list for the C10 witness. -/
def propsW : List SlotRec := [⟨5⟩, ⟨9⟩]

/-- Concrete scene for the C10 witness. -/
def scW : SceneModel :=
  { sc_stacks := [⟨"A", 0⟩, ⟨"B", 1⟩]
    stacks_active := 1
    objects := [] }

/-- Concrete object for the C10 witness. -/
def obW : ObjectModel :=
  { stacks_ui := [⟨"A", 0, "000"⟩, ⟨"B", 1, "001"⟩]
    stacks_c := [⟨0, 0⟩, ⟨1, 1⟩] }

/-- Witness for C10 at concrete two-element collections, removing index 1. -/
theorem C10_remove_reindex_and_active_witness :
    (1 < propsW.length ∧ 0 ≤ scW.stacks_active ∧
      scW.stacks_active.toNat < scW.sc_stacks.length ∧
      1 < obW.stacks_ui.length ∧ 1 < obW.stacks_c.length) ∧
    (((∀ i, ∀ h : i < (slot_remove propsW 1).1.length,
        ((slot_remove propsW 1).1.get ⟨i, h⟩).index = (i : ℤ)) ∧
      ((slot_remove propsW 1).2 = if 1 ≠ 0 then 1 - 1 else 0) ∧
      ((slot_remove propsW 1).1 ≠ [] →
        (slot_remove propsW 1).2 < (slot_remove propsW 1).1.length)) ∧
    ((∀ i, ∀ h : i < (project_stack_remove scW).sc_stacks.length,
        ((project_stack_remove scW).sc_stacks.get ⟨i, h⟩).index = (i : ℤ)) ∧
      ((project_stack_remove scW).stacks_active =
        if scW.stacks_active ≠ 0 then scW.stacks_active - 1 else 0) ∧
      ((project_stack_remove scW).sc_stacks ≠ [] →
        0 ≤ (project_stack_remove scW).stacks_active ∧
        (project_stack_remove scW).stacks_active.toNat <
          (project_stack_remove scW).sc_stacks.length)) ∧
    ((∀ i, ∀ h : i < (object_stack_remove obW 1).1.stacks_ui.length,
        ((object_stack_remove obW 1).1.stacks_ui.get ⟨i, h⟩).index = (i : ℤ)) ∧
      (∀ i, ∀ h : i < (object_stack_remove obW 1).1.stacks_c.length,
        ((object_stack_remove obW 1).1.stacks_c.get ⟨i, h⟩).index = (i : ℤ)) ∧
      ((object_stack_remove obW 1).2 = if 1 ≠ 0 then 1 - 1 else 0) ∧
      ((object_stack_remove obW 1).1.stacks_ui ≠ [] →
        (object_stack_remove obW 1).2 <
          (object_stack_remove obW 1).1.stacks_ui.length))) :=
  ⟨⟨by decide, by decide, by decide, by decide, by decide⟩,
    C10_remove_reindex_and_active propsW 1 (by decide) scW (by decide) (by decide)
      obW 1 (by decide) (by decide)⟩

/-! ### Claim C8: restoring a stored selection snapshot (`SelectSet`) -/

/-- The selection flags of the current mesh. -/
structure MeshSel where
  verts : List Bool
  edges : List Bool
  faces : List Bool
deriving DecidableEq, Repr

/-- One `for v in verts: mesh.vertices[v].select = True` loop: indices are
applied in order until one is out of range; that raises IndexError, which
aborts the loop (modelled by the `false` flag) with the earlier
assignments already applied. -/
def select_indices : List ℕ → List Bool → List Bool × Bool
  | [], l => (l, true)
  | i :: rest, l => if i < l.length then select_indices rest (l.set i true) else (l, false)

/-- `SelectSet.operator` (src/stacks_exe.py:271-296), after the snapshot
string is parsed into its three index lists: deselect everything, then
one `try` block sets the vertex, edge and face selections in that order;
an `IndexError` aborts the rest of the block and reports a warning
(`warned = true`) instead of propagating.  The select-mode flags and mode
switches do not affect the selection state and are omitted. -/
def SelectSet_run (nV nE nF : ℕ) (verts edges faces : List ℕ) : MeshSel × Bool :=
  let v0 := List.replicate nV false
  let e0 := List.replicate nE false
  let f0 := List.replicate nF false
  let rv := select_indices verts v0
  if ¬rv.2 then (⟨rv.1, e0, f0⟩, true)
  else
    let re := select_indices edges e0
    if ¬re.2 then (⟨rv.1, re.1, f0⟩, true)
    else
      let rf := select_indices faces f0
      (⟨rv.1, re.1, rf.1⟩, ¬rf.2)

/-- The abort-at-first-failure loop equals applying exactly the in-range
prefix, with success iff every index is in range. -/
theorem select_indices_eq (idxs : List ℕ) (l : List Bool) :
    select_indices idxs l =
      ((idxs.takeWhile fun i => decide (i < l.length)).foldl
        (fun acc i => acc.set i true) l,
       idxs.all fun i => decide (i < l.length)) := by
  induction idxs generalizing l with
  | nil => rfl
  | cons i rest ih =>
      by_cases h : i < l.length
      · simp [select_indices, if_pos h, ih, List.length_set, List.takeWhile_cons, h,
          List.foldl_cons, List.all_cons]
      · simp [select_indices, if_neg h, List.takeWhile_cons, h, List.foldl_nil,
          List.all_cons]

/-- Claim C8 amended: when applying a stored selection snapshot with any
out-of-range vertex, edge or face index, the IndexError is caught (the
operator returns with `warned = true` instead of propagating) and the
assignments from the first out-of-range index onward are skipped; the
assignments made before it remain applied (the selection step is not
rolled back).  Stated as: the warning flag is set exactly when some index
is out of range, the vertex flags always receive the in-range prefix of
the vertex list, and each later list is applied only when all earlier
lists were fully in range. -/
theorem C8_select_set_out_of_range (nV nE nF : ℕ) (verts edges faces : List ℕ) :
    ((SelectSet_run nV nE nF verts edges faces).2 = true ↔
      ¬((∀ i ∈ verts, i < nV) ∧ (∀ i ∈ edges, i < nE) ∧ (∀ i ∈ faces, i < nF))) ∧
    ((SelectSet_run nV nE nF verts edges faces).1.verts =
      (verts.takeWhile fun i => decide (i < nV)).foldl (fun acc i => acc.set i true)
        (List.replicate nV false)) ∧
    ((∀ i ∈ verts, i < nV) →
      (SelectSet_run nV nE nF verts edges faces).1.edges =
        (edges.takeWhile fun i => decide (i < nE)).foldl (fun acc i => acc.set i true)
          (List.replicate nE false)) ∧
    (¬(∀ i ∈ verts, i < nV) →
      (SelectSet_run nV nE nF verts edges faces).1.edges = List.replicate nE false) ∧
    ((∀ i ∈ verts, i < nV) → (∀ i ∈ edges, i < nE) →
      (SelectSet_run nV nE nF verts edges faces).1.faces =
        (faces.takeWhile fun i => decide (i < nF)).foldl (fun acc i => acc.set i true)
          (List.replicate nF false)) ∧
    (¬((∀ i ∈ verts, i < nV) ∧ (∀ i ∈ edges, i < nE)) →
      (SelectSet_run nV nE nF verts edges faces).1.faces = List.replicate nF false) := by
  have hv := select_indices_eq verts (List.replicate nV false)
  have he := select_indices_eq edges (List.replicate nE false)
  have hf := select_indices_eq faces (List.replicate nF false)
  rw [List.length_replicate] at hv he hf
  unfold SelectSet_run
  dsimp only
  rw [hv, he, hf]
  by_cases pA : ∀ i ∈ verts, i < nV
  · have cA : ¬∃ x ∈ verts, nV ≤ x := by simpa [not_lt] using pA
    by_cases pB : ∀ i ∈ edges, i < nE
    · have cB : ¬∃ x ∈ edges, nE ≤ x := by simpa [not_lt] using pB
      by_cases pC : ∀ i ∈ faces, i < nF
      · have cC : ¬∃ x ∈ faces, nF ≤ x := by simpa [not_lt] using pC
        simp [cA, cB, cC, pA, pB, pC]
      · have cC : ∃ x ∈ faces, nF ≤ x := by
          push_neg at pC
          simpa [not_lt] using pC
        simp [cA, cB, cC, pA, pB, pC]
    · have cB : ∃ x ∈ edges, nE ≤ x := by
        push_neg at pB
        simpa [not_lt] using pB
      simp [cA, cB, pA, pB]
  · have cA : ∃ x ∈ verts, nV ≤ x := by
      push_neg at pA
      simpa [not_lt] using pA
    simp [cA, pA]

/-- Claim C8 as stated is false: on a 2-vertex mesh, restoring a snapshot
with vertex indices [0, 5] reports the warning but leaves vertex 0
selected — the selection step is partially applied, not skipped. -/
theorem C8_counterexample :
    (SelectSet_run 2 1 1 [0, 5] [0] [0]).2 = true ∧
      (SelectSet_run 2 1 1 [0, 5] [0] [0]).1.verts = [true, false] ∧
      (SelectSet_run 2 1 1 [0, 5] [0] [0]).1.verts ≠ List.replicate 2 false := by
  decide

/-! ### Claim C7: preset save/load round trip

`STACKS_PresetsOps` (src/stacks_presets_support.py).  A saved operator
entry is the list of `(property name, value)` pairs that
`__add_op_as_str` writes out; the Blender-text / `as_module` layer (a
Python literal printed and re-parsed) is abstracted as the identity on
these parsed values.  `__set_ops` assigns each saved pair onto the fresh
entry, resolving `"___stacks_<typeclass>s.<name>"` strings through
`__get_bl_rna_item`; an `AttributeError` (unknown data collection) is
caught and the field skipped with `success = False`. -/

/-- A parsed preset value: string, float, int, bool, vector tuple, a
datablock reference `(typeclass, name)` (e.g. ("material", "Mat")), or
Python `None`. -/
inductive PresetVal where
  | s (v : String)
  | q (v : ℚ)
  | z (v : ℤ)
  | b (v : Bool)
  | vec3 (x y z : ℚ)
  | ptr (cls nm : String)
  | non
deriving DecidableEq, Repr

/-- `bpy.data` as far as load needs it: data collections (plural
typeclass name) mapped to the names of their items; `getattr` on a
missing collection raises AttributeError (`none`). -/
def dataFind : List (String × List String) → String → Option (List String)
  | [], _ => none
  | (k, items) :: rest, s => if k = s then some items else dataFind rest s

/-- Python `item.startswith("___")`. -/
def pyStartsUnd (s : String) : Bool :=
  List.isPrefixOf "___".toList s.toList

/-- Split a character list at the first '.': `(before, some after)`, or
`(whole, none)` when there is no dot.  This matches what
`__get_bl_rna_item` extracts with `item.split(".")[0]` and
`item.replace(namelist[0], "")[1:]` for items in which the first
component occurs only once (all well-formed reference tags; for a
dotless item Python's `itemname` is likewise empty). -/
def splitDot : List Char → List Char × Option (List Char)
  | [] => ([], none)
  | c :: rest =>
      if c = '.' then ([], some rest)
      else
        let r := splitDot rest
        (c :: r.1, r.2)

/-- `namelist[0].replace("___stacks_", "")`: for components where the
marker occurs at most once, as a prefix, this strips it. -/
def stripTag (l : List Char) : List Char :=
  if List.isPrefixOf "___stacks_".toList l then l.drop 10 else l

/-- `STACKS_PresetsOps.__get_bl_rna_item`
(src/stacks_presets_support.py:130-142): parse the tag, look the
collection up on `bpy.data` (AttributeError when absent), and return the
named datablock, or `None` plus a reported warning when the name is not
in the collection. -/
def get_bl_rna_item (data : List (String × List String)) (item : String) :
    Except Unit (Bool × PresetVal) :=
  let parts := splitDot item.toList
  let bl_type_name := (stripTag parts.1).asString
  match dataFind data bl_type_name with
  | none => .error ()
  | some items =>
      let itemname := (parts.2.getD []).asString
      if itemname ∈ items then
        .ok (false, .ptr (bl_type_name.toList.dropLast).asString itemname)
      else .ok (true, .non)

/-- The value conversion of `__add_op_as_str`
(src/stacks_presets_support.py:86-104): a datablock reference becomes the
tagged string `"___stacks_<typeclass>s.<name>"` (from
`type(value)`'s lowercased class name); every other value is written as
its literal and parses back to itself. -/
def encode_value : PresetVal → PresetVal
  | .ptr cls nm => .s ("___stacks_" ++ cls ++ "s." ++ nm)
  | v => v

/-- `__add_op_as_str` over the whole entry: every non-callable,
non-dunder property is saved in `dir` order. -/
def add_op_as_str (op : List (String × PresetVal)) : List (String × PresetVal) :=
  op.map fun p => (p.1, encode_value p.2)

/-- The property store of one fresh operator entry. -/
def Store : Type := String → PresetVal

/-- `setattr(stack.ops[num], prop, item)`. -/
def setStore (st : Store) (k : String) (v : PresetVal) : Store :=
  fun q => if q = k then v else st q

/-- `STACKS_PresetsOps.__set_ops` (src/stacks_presets_support.py:144-163)
for one saved entry: strings starting with "___" are resolved through
`__get_bl_rna_item`; an AttributeError skips the field and clears
`success`; a missing-item lookup sets the field to None and flags the
warning; every other value is assigned directly. -/
def set_op (data : List (String × List String)) :
    List (String × PresetVal) → Store → Bool → Bool → Store × Bool × Bool
  | [], st, warned, success => (st, warned, success)
  | (prop, item) :: rest, st, warned, success =>
      match item with
      | .s sv =>
          if pyStartsUnd sv then
            match get_bl_rna_item data sv with
            | .error _ => set_op data rest st warned false
            | .ok (w, v) => set_op data rest (setStore st prop v) (warned || w) success
          else set_op data rest (setStore st prop (.s sv)) warned success
      | v => set_op data rest (setStore st prop v) warned success

/-- What loading reproduces for one saved value: a reference with its
item present survives; one whose item is missing becomes None; all other
values come back unchanged. -/
def decode_saved (data : List (String × List String)) : PresetVal → PresetVal
  | .ptr cls nm =>
      if nm ∈ (dataFind data (cls ++ "s")).getD [] then .ptr cls nm else .non
  | v => v

theorem isPrefixOf_self_append (p t : List Char) : List.isPrefixOf p (p ++ t) = true := by
  induction p with
  | nil => simp [List.isPrefixOf]
  | cons c cs ih => simp [List.isPrefixOf, ih]

theorem splitDot_append (xs ys : List Char) (h : '.' ∉ xs) :
    splitDot (xs ++ '.' :: ys) = (xs, some ys) := by
  induction xs with
  | nil => simp [splitDot]
  | cons c cs ih =>
      have hc : ¬(c = '.') := fun he => h (he ▸ List.mem_cons_self c cs)
      simp [splitDot, hc, ih fun hm => h (List.mem_cons_of_mem _ hm)]

theorem stripTag_append (x : List Char) :
    stripTag ("___stacks_".toList ++ x) = x := by
  unfold stripTag
  rw [if_pos (isPrefixOf_self_append _ _)]
  have h10 : ("___stacks_".toList).length = 10 := rfl
  rw [← h10]
  exact List.drop_left _ _

theorem pyStartsUnd_tag (t : String) : pyStartsUnd ("___stacks_" ++ t) = true := by
  unfold pyStartsUnd
  show List.isPrefixOf "___".toList ("___".toList ++ ("stacks_".toList ++ t.toList)) = true
  exact isPrefixOf_self_append _ _

/-- `__get_bl_rna_item` on a well-formed tag produced by
`__add_op_as_str`: parses back to the collection `cls ++ "s"` and the
item name. -/
theorem get_bl_rna_item_tag (data : List (String × List String)) (cls nm : String)
    (hdot : '.' ∉ cls.toList) :
    get_bl_rna_item data ("___stacks_" ++ cls ++ "s." ++ nm) =
      (match dataFind data (cls ++ "s") with
       | none => .error ()
       | some items =>
          if nm ∈ items then .ok (false, PresetVal.ptr cls nm)
          else .ok (true, PresetVal.non)) := by
  have h1 : ("___stacks_" ++ cls ++ "s." ++ nm).toList =
      ("___stacks_".toList ++ (cls.toList ++ ['s'])) ++ '.' :: nm.toList := by
    show ("___stacks_".toList ++ cls.toList ++ ['s', '.']) ++ nm.toList = _
    simp
  have hnodot : '.' ∉ "___stacks_".toList ++ (cls.toList ++ ['s']) := by
    intro hm
    rcases List.mem_append.mp hm with hm | hm
    · revert hm
      decide
    · rcases List.mem_append.mp hm with hm | hm
      · exact hdot hm
      · revert hm
        decide
  have h2 : splitDot ("___stacks_" ++ cls ++ "s." ++ nm).toList =
      ("___stacks_".toList ++ (cls.toList ++ ['s']), some nm.toList) := by
    rw [h1, splitDot_append _ _ hnodot]
  have h3 : (stripTag ("___stacks_".toList ++ (cls.toList ++ ['s']))).asString =
      cls ++ "s" := by
    rw [stripTag_append]
    rfl
  have h4 : ((cls ++ "s").toList.dropLast).asString = cls := by
    show ((cls.toList ++ ['s']).dropLast).asString = cls
    rw [List.dropLast_concat]
    rfl
  unfold get_bl_rna_item
  rw [h2]
  dsimp only
  rw [h3]
  cases hfind : dataFind data (cls ++ "s") with
  | none => rfl
  | some items =>
      dsimp only
      rw [h4]
      rfl

theorem setStore_ne (st : Store) (k : String) (v : PresetVal) (q : String) (h : q ≠ k) :
    setStore st k v q = st q := by
  simp [setStore, h]

/-- `__set_ops` never writes a property name that is not among the saved
keys. -/
theorem set_op_store_not_mem (data : List (String × List String))
    (enc : List (String × PresetVal)) (st : Store) (w succ : Bool) (k : String)
    (h : k ∉ enc.map Prod.fst) :
    (set_op data enc st w succ).1 k = st k := by
  induction enc generalizing st w succ with
  | nil => rfl
  | cons p rest ih =>
      obtain ⟨prop, item⟩ := p
      have hk : k ≠ prop := by
        intro he
        exact h (by simp [he])
      have hrest : k ∉ rest.map Prod.fst := fun hm => h (by simp [hm])
      cases item with
      | s sv =>
          by_cases hu : pyStartsUnd sv
          · cases hg : get_bl_rna_item data sv with
            | error e =>
                simp only [set_op, hu, if_true, hg]
                exact ih _ _ _ hrest
            | ok wv =>
                simp only [set_op, hu, if_true, hg]
                rw [ih _ _ _ hrest, setStore_ne _ _ _ _ hk]
          · simp only [set_op, hu, Bool.false_eq_true, if_false]
            rw [ih _ _ _ hrest, setStore_ne _ _ _ _ hk]
      | q v =>
          show (set_op data rest (setStore st prop _) w succ).1 k = st k
          rw [ih _ _ _ hrest, setStore_ne _ _ _ _ hk]
      | z v =>
          show (set_op data rest (setStore st prop _) w succ).1 k = st k
          rw [ih _ _ _ hrest, setStore_ne _ _ _ _ hk]
      | b v =>
          show (set_op data rest (setStore st prop _) w succ).1 k = st k
          rw [ih _ _ _ hrest, setStore_ne _ _ _ _ hk]
      | vec3 x y z =>
          show (set_op data rest (setStore st prop _) w succ).1 k = st k
          rw [ih _ _ _ hrest, setStore_ne _ _ _ _ hk]
      | ptr cls nm =>
          show (set_op data rest (setStore st prop _) w succ).1 k = st k
          rw [ih _ _ _ hrest, setStore_ne _ _ _ _ hk]
      | non =>
          show (set_op data rest (setStore st prop _) w succ).1 k = st k
          rw [ih _ _ _ hrest, setStore_ne _ _ _ _ hk]

/-- A raised warning flag survives the rest of `__set_ops`. -/
theorem set_op_warned_mono (data : List (String × List String))
    (enc : List (String × PresetVal)) (st : Store) (succ : Bool) :
    (set_op data enc st true succ).2.1 = true := by
  induction enc generalizing st succ with
  | nil => rfl
  | cons p rest ih =>
      obtain ⟨prop, item⟩ := p
      cases item with
      | s sv =>
          by_cases hu : pyStartsUnd sv
          · cases hg : get_bl_rna_item data sv with
            | error e => simp only [set_op, hu, if_true, hg]; exact ih _ _
            | ok wv =>
                simp only [set_op, hu, if_true, hg, Bool.true_or]
                exact ih _ _
          · simp only [set_op, hu, Bool.false_eq_true, if_false]
            exact ih _ _
      | q v => exact ih _ _
      | z v => exact ih _ _
      | b v => exact ih _ _
      | vec3 x y z => exact ih _ _
      | ptr cls nm => exact ih _ _
      | non => exact ih _ _

theorem map_fst_add_op (l : List (String × PresetVal)) :
    (add_op_as_str l).map Prod.fst = l.map Prod.fst := by
  simp [add_op_as_str]

theorem set_op_roundtrip_aux (data : List (String × List String)) :
    ∀ (op : List (String × PresetVal)),
      (op.map Prod.fst).Nodup →
      (∀ p ∈ op, ∀ sv, p.2 = PresetVal.s sv → pyStartsUnd sv = false) →
      (∀ p ∈ op, ∀ cls nm, p.2 = PresetVal.ptr cls nm →
        '.' ∉ cls.toList ∧ dataFind data (cls ++ "s") ≠ none) →
      ∀ (st0 : Store) (w0 : Bool),
        ((set_op data (add_op_as_str op) st0 w0 true).2.2 = true) ∧
        (∀ p ∈ op, (set_op data (add_op_as_str op) st0 w0 true).1 p.1 =
          decode_saved data p.2) ∧
        (∀ p ∈ op, ∀ cls nm, p.2 = PresetVal.ptr cls nm →
          nm ∉ (dataFind data (cls ++ "s")).getD [] →
          (set_op data (add_op_as_str op) st0 w0 true).2.1 = true) := by
  intro op
  induction op with
  | nil =>
      intro _ _ _ st0 w0
      exact ⟨rfl, by simp, by simp⟩
  | cons hd rest ih =>
      intro hnodup hstr hptr st0 w0
      obtain ⟨k, v⟩ := hd
      rw [List.map_cons, List.nodup_cons] at hnodup
      obtain ⟨hknot, hnodup'⟩ := hnodup
      have hstr' : ∀ p ∈ rest, ∀ sv, p.2 = PresetVal.s sv → pyStartsUnd sv = false :=
        fun p hp sv hv => hstr p (List.mem_cons_of_mem _ hp) sv hv
      have hptr' : ∀ p ∈ rest, ∀ cls nm, p.2 = PresetVal.ptr cls nm →
          '.' ∉ cls.toList ∧ dataFind data (cls ++ "s") ≠ none :=
        fun p hp cls nm hv => hptr p (List.mem_cons_of_mem _ hp) cls nm hv
      suffices hstep : ∃ st1 w1,
          set_op data (add_op_as_str ((k, v) :: rest)) st0 w0 true =
            set_op data (add_op_as_str rest) st1 w1 true ∧
          st1 k = decode_saved data v ∧
          (∀ cls nm, v = PresetVal.ptr cls nm →
            nm ∉ (dataFind data (cls ++ "s")).getD [] → w1 = true) by
        obtain ⟨st1, w1, heq, hk1, hw1⟩ := hstep
        obtain ⟨ihsucc, ihstore, ihwarn⟩ := ih hnodup' hstr' hptr' st1 w1
        refine ⟨by rw [heq]; exact ihsucc, ?_, ?_⟩
        · intro p hp
          rcases List.mem_cons.mp hp with rfl | hp'
          · rw [heq, set_op_store_not_mem]
            · exact hk1
            · rw [map_fst_add_op]
              exact hknot
          · rw [heq]
            exact ihstore p hp'
        · intro p hp cls nm hv hmiss
          rcases List.mem_cons.mp hp with rfl | hp'
          · rw [heq, hw1 cls nm hv hmiss]
            exact set_op_warned_mono _ _ _ _
          · rw [heq]
            exact ihwarn p hp' cls nm hv hmiss
      have hadd : add_op_as_str ((k, v) :: rest) =
          (k, encode_value v) :: add_op_as_str rest := rfl
      cases v with
      | s sv =>
          have hu : pyStartsUnd sv = false :=
            hstr (k, .s sv) (List.mem_cons_self _ _) sv rfl
          refine ⟨setStore st0 k (.s sv), w0, ?_, ?_, ?_⟩
          · rw [hadd]
            simp only [encode_value, set_op, hu, Bool.false_eq_true, if_false]
          · simp [setStore, decode_saved]
          · intro cls nm hv
            cases hv
      | ptr cls nm =>
          obtain ⟨hdot, hfind⟩ := hptr (k, .ptr cls nm) (List.mem_cons_self _ _) cls nm rfl
          have hassoc : "___stacks_" ++ cls ++ "s." ++ nm =
              "___stacks_" ++ (cls ++ ("s." ++ nm)) := by
            rw [String.append_assoc, String.append_assoc]
          have hu : pyStartsUnd ("___stacks_" ++ cls ++ "s." ++ nm) = true := by
            rw [hassoc]
            exact pyStartsUnd_tag _
          have hget := get_bl_rna_item_tag data cls nm hdot
          cases hfi : dataFind data (cls ++ "s") with
          | none => exact absurd hfi hfind
          | some items =>
              rw [hfi] at hget
              by_cases hin : nm ∈ items
              · refine ⟨setStore st0 k (.ptr cls nm), w0, ?_, ?_, ?_⟩
                · rw [hadd]
                  simp only [encode_value, set_op, hu, if_true, hget, if_pos hin,
                    Bool.or_false]
                · simp [setStore, decode_saved, hfi, hin]
                · intro cls' nm' hv hmiss
                  injection hv with h1 h2
                  subst h1
                  subst h2
                  rw [hfi] at hmiss
                  exact absurd hin hmiss
              · refine ⟨setStore st0 k .non, true, ?_, ?_, ?_⟩
                · rw [hadd]
                  simp only [encode_value, set_op, hu, if_true, hget, if_neg hin,
                    Bool.or_true]
                · simp [setStore, decode_saved, hfi, hin]
                · intro cls' nm' hv hmiss
                  rfl
      | q x => exact ⟨setStore st0 k (.q x), w0, rfl, by simp [setStore, decode_saved],
          fun cls nm hv => by cases hv⟩
      | z x => exact ⟨setStore st0 k (.z x), w0, rfl, by simp [setStore, decode_saved],
          fun cls nm hv => by cases hv⟩
      | b x => exact ⟨setStore st0 k (.b x), w0, rfl, by simp [setStore, decode_saved],
          fun cls nm hv => by cases hv⟩
      | vec3 x y z => exact ⟨setStore st0 k (.vec3 x y z), w0, rfl,
          by simp [setStore, decode_saved], fun cls nm hv => by cases hv⟩
      | non => exact ⟨setStore st0 k .non, w0, rfl, by simp [setStore, decode_saved],
          fun cls nm hv => by cases hv⟩

/-- Claim C7 amended: loading a saved stack reproduces every operator
field's value — `success` stays true, non-reference fields and reference
fields whose item exists come back unchanged, and a reference field whose
item is missing from the project is cleared to None with the warning flag
raised (no crash) — provided no string-valued field's own value begins
with "___": such strings are misread as reference tags, which the
hypotheses (met by every real schema value) exclude. -/
theorem C7_preset_roundtrip (data : List (String × List String))
    (op : List (String × PresetVal)) (defaults : Store)
    (hnodup : (op.map Prod.fst).Nodup)
    (hstr : ∀ p ∈ op, ∀ sv, p.2 = PresetVal.s sv → pyStartsUnd sv = false)
    (hptr : ∀ p ∈ op, ∀ cls nm, p.2 = PresetVal.ptr cls nm →
      '.' ∉ cls.toList ∧ dataFind data (cls ++ "s") ≠ none) :
    ((set_op data (add_op_as_str op) defaults false true).2.2 = true) ∧
    (∀ p ∈ op, (∀ cls nm, p.2 ≠ PresetVal.ptr cls nm) →
      (set_op data (add_op_as_str op) defaults false true).1 p.1 = p.2) ∧
    (∀ p ∈ op, ∀ cls nm, p.2 = PresetVal.ptr cls nm →
      nm ∈ (dataFind data (cls ++ "s")).getD [] →
      (set_op data (add_op_as_str op) defaults false true).1 p.1 = p.2) ∧
    (∀ p ∈ op, ∀ cls nm, p.2 = PresetVal.ptr cls nm →
      nm ∉ (dataFind data (cls ++ "s")).getD [] →
      (set_op data (add_op_as_str op) defaults false true).1 p.1 = PresetVal.non ∧
      (set_op data (add_op_as_str op) defaults false true).2.1 = true) := by
  obtain ⟨hsucc, hstore, hwarn⟩ := set_op_roundtrip_aux data op hnodup hstr hptr
    defaults false
  refine ⟨hsucc, ?_, ?_, ?_⟩
  · intro p hp hnp
    rw [hstore p hp]
    cases h2 : p.2 with
    | ptr cls nm => exact absurd h2 (hnp cls nm)
    | s sv => rfl
    | q x => rfl
    | z x => rfl
    | b x => rfl
    | vec3 x y z => rfl
    | non => rfl
  · intro p hp cls nm hv hmem
    rw [hstore p hp, hv]
    simp [decode_saved, hmem]
  · intro p hp cls nm hv hmiss
    refine ⟨?_, hwarn p hp cls nm hv hmiss⟩
    rw [hstore p hp, hv]
    simp [decode_saved, hmiss]

/-- The C7 failing input: a plain string property whose value begins with
"___". -/
def opC7 : List (String × PresetVal) := [("sel_vgroup", .s "___x")]

/-- The C7 project data: the standard collections, no item named "___x". -/
def dataC7 : List (String × List String) := [("materials", ["Mat"]), ("objects", [])]

/-- A fresh entry's defaults for C7. -/
def defaultsC7 : Store := fun _ => .s ""

/-- Claim C7 as stated is false: saving a stack whose `sel_vgroup` string
is "___x" and loading it does not reproduce the field (the load path
misparses it as a reference tag, `getattr(bpy.data, "___x")` raises
AttributeError, and the field is skipped with `success = False`), even
though the entry has no reference-typed field at all. -/
theorem C7_counterexample :
    (set_op dataC7 (add_op_as_str opC7) defaultsC7 false true).1 "sel_vgroup" ≠
      PresetVal.s "___x" ∧
    (∀ p ∈ opC7, ∀ cls nm, p.2 ≠ PresetVal.ptr cls nm) ∧
    (set_op dataC7 (add_op_as_str opC7) defaultsC7 false true).2.2 = false := by
  refine ⟨by decide, ?_, by decide⟩
  intro p hp cls nm
  simp only [opC7, List.mem_cons, List.not_mem_nil, or_false] at hp
  subst hp
  simp

/-- The C7 witness entry: a float, a clean string, a reference with its
item present, and a reference with its item missing. -/
def opW7 : List (String × PresetVal) :=
  [("gen_solidify", .q 1), ("sel_vgroup", .s "grp"),
   ("asn_material", .ptr "material" "Mat"), ("gen_bool_object", .ptr "object" "Cube")]

/-- Witness for the amended C7 at the concrete entry `opW7`. -/
theorem C7_preset_roundtrip_witness :
    ((opW7.map Prod.fst).Nodup ∧
      (∀ p ∈ opW7, ∀ sv, p.2 = PresetVal.s sv → pyStartsUnd sv = false) ∧
      (∀ p ∈ opW7, ∀ cls nm, p.2 = PresetVal.ptr cls nm →
        '.' ∉ cls.toList ∧ dataFind dataC7 (cls ++ "s") ≠ none)) ∧
    (((set_op dataC7 (add_op_as_str opW7) defaultsC7 false true).2.2 = true) ∧
      (∀ p ∈ opW7, (∀ cls nm, p.2 ≠ PresetVal.ptr cls nm) →
        (set_op dataC7 (add_op_as_str opW7) defaultsC7 false true).1 p.1 = p.2) ∧
      (∀ p ∈ opW7, ∀ cls nm, p.2 = PresetVal.ptr cls nm →
        nm ∈ (dataFind dataC7 (cls ++ "s")).getD [] →
        (set_op dataC7 (add_op_as_str opW7) defaultsC7 false true).1 p.1 = p.2) ∧
      (∀ p ∈ opW7, ∀ cls nm, p.2 = PresetVal.ptr cls nm →
        nm ∉ (dataFind dataC7 (cls ++ "s")).getD [] →
        (set_op dataC7 (add_op_as_str opW7) defaultsC7 false true).1 p.1 =
          PresetVal.non ∧
        (set_op dataC7 (add_op_as_str opW7) defaultsC7 false true).2.1 = true)) := by
  have hstr : ∀ p ∈ opW7, ∀ sv, p.2 = PresetVal.s sv → pyStartsUnd sv = false := by
    intro p hp sv hv
    simp only [opW7, List.mem_cons, List.not_mem_nil, or_false] at hp
    rcases hp with rfl | rfl | rfl | rfl <;> (cases hv) <;> decide
  have hptr : ∀ p ∈ opW7, ∀ cls nm, p.2 = PresetVal.ptr cls nm →
      '.' ∉ cls.toList ∧ dataFind dataC7 (cls ++ "s") ≠ none := by
    intro p hp cls nm hv
    simp only [opW7, List.mem_cons, List.not_mem_nil, or_false] at hp
    rcases hp with rfl | rfl | rfl | rfl <;> cases hv <;> exact ⟨by decide, by decide⟩
  exact ⟨⟨by decide, hstr, hptr⟩,
    C7_preset_roundtrip dataC7 opW7 defaultsC7 (by decide) hstr hptr⟩

end Stacks
